import Mathlib

/-!
Shallow embedding of the playlist-generation backend
(EMOTIONQUEST_BACKEND) in Lean 4, used to check the claims of the
natural-language specification against the code.

Conventions of the embedding:
* JS strings are Lean `String`s; all character-level operations are
  re-implemented on `List Char` (ASCII case folding, ASCII whitespace),
  because the claims and all witnesses only involve ASCII data.
* JS numbers appearing in scores are modelled as `ℚ` (the score
  arithmetic of the code is exact decimal arithmetic on small values).
* A JS function that can throw is modelled as returning `Except`;
  a `try/catch` is an explicit `match` on that `Except`.
* A JS `Map` is modelled as an insertion-ordered association list
  (`JsMap`), which is exactly the iteration/insertion-order semantics
  of `Map`.
-/

/-! ## JavaScript string primitives -/

/-- Backtick character (written numerically). -/
def btickChar : Char := Char.ofNat 96

/-- Single-quote character (written numerically). -/
def squoteChar : Char := Char.ofNat 39

/-- Opening-brace character (written numerically). -/
def lbraceChar : Char := Char.ofNat 123

/-- Closing-brace character (written numerically). -/
def rbraceChar : Char := Char.ofNat 125

/-- ASCII lower-casing of one character, modelling `String.toLowerCase`
on the ASCII range. -/
def lowerChar (c : Char) : Char :=
  if 'A' ≤ c ∧ c ≤ 'Z' then Char.ofNat (c.toNat + 32) else c

/-- Whitespace test modelling the ASCII part of the JS `\s` class /
`String.trim` whitespace set. -/
def isWsChar (c : Char) : Bool :=
  c = ' ' ∨ c = '\t' ∨ c = '\n' ∨ c = '\r' ∨ c = '\x0b' ∨ c = '\x0c'

/-- Trim leading and trailing whitespace from a character list. -/
def trimList (l : List Char) : List Char :=
  ((l.dropWhile isWsChar).reverse.dropWhile isWsChar).reverse

/-- Model of `str.trim()`. -/
def jsTrim (s : String) : String := ⟨trimList s.data⟩

/-- Model of `str.toLowerCase()` (ASCII). -/
def jsLower (s : String) : String := ⟨s.data.map lowerChar⟩

mutual

/-- Auxiliary splitter for `str.split(/\s+/)`: a run of whitespace ends
the current piece; like the JS regex split, a leading run produces a
leading empty piece and a trailing run a trailing empty piece.
`splitWsSkip` consumes the remainder of a whitespace run. -/
def splitWsAux : List Char → List Char → List (List Char)
  | [], acc => [acc.reverse]
  | c :: rest, acc =>
    if isWsChar c then acc.reverse :: splitWsSkip rest
    else splitWsAux rest (c :: acc)

def splitWsSkip : List Char → List (List Char)
  | [] => [[]]
  | c :: rest =>
    if isWsChar c then splitWsSkip rest
    else splitWsAux rest [c]

end

/-- Model of `str.split(/\s+/)` (on the empty string JS returns
`[""]`, which the `[acc.reverse]` base case produces). -/
def jsSplitWs (s : String) : List String :=
  (splitWsAux s.data []).map (fun l => ⟨l⟩)

/-- JS truthiness of a string: only the empty string is falsy. -/
def strTruthy (s : String) : Bool := s ≠ ""

/-- JS truthiness of an optional string field (`undefined`/missing and
`""` are falsy). -/
def optStrTruthy : Option String → Bool
  | none => false
  | some s => s ≠ ""

/-! ## JavaScript `Map` as an insertion-ordered association list -/

/-- A JS `Map`: entries in insertion order. -/
abbrev JsMap (α β : Type) : Type := List (α × β)

/-- `map.get(k)` — first (unique) entry with the key. -/
def JsMap.get [DecidableEq α] (m : JsMap α β) (k : α) : Option β :=
  (List.find? (fun p => p.1 = k) m).map (·.2)

/-- `map.set(k, v)`: update in place if the key exists (keeping its
position), otherwise append at the end (insertion order). -/
def JsMap.set [DecidableEq α] (m : JsMap α β) (k : α) (v : β) : JsMap α β :=
  if (List.any m (fun p => p.1 = k)) then
    List.map (fun p => if p.1 = k then (k, v) else p) m
  else
    m ++ [(k, v)]

/-- `map.delete(k)`. -/
def JsMap.del [DecidableEq α] (m : JsMap α β) (k : α) : JsMap α β :=
  List.filter (fun p => ¬ p.1 = k) m

/-- `map.keys().next().value` — the first (oldest-inserted) key. -/
def JsMap.firstKey (m : JsMap α β) : Option α :=
  (List.head? m).map (·.1)

/-- `map.size`. -/
def JsMap.size (m : JsMap α β) : Nat := List.length m

/-! ## Fuzzy match scorer (`youtubeMusicService.js` `findBestMatch` and
`spotifyService` `findBestSpotifyMatch`)

Source (identical local `similarity` in both):
```js
const similarity = (str1, str2) => {
  if (!str1 || !str2) return 0;
  const s1 = str1.toLowerCase().trim();
  const s2 = str2.toLowerCase().trim();
  if (s1 === s2) return 1;
  const words1 = s1.split(/\s+/);
  const words2 = s2.split(/\s+/);
  const commonWords = words1.filter(word => words2.includes(word));
  return commonWords.length / Math.max(words1.length, words2.length);
};
```
-/

/-- The pairwise text-similarity used by both best-match selectors. -/
def similarity (str1 str2 : String) : ℚ :=
  if str1 = "" ∨ str2 = "" then 0
  else
    let s1 := jsTrim (jsLower str1)
    let s2 := jsTrim (jsLower str2)
    if s1 = s2 then 1
    else
      let words1 := jsSplitWs s1
      let words2 := jsSplitWs s2
      let commonWords := words1.filter (fun word => words2.contains word)
      (commonWords.length : ℚ) / (max words1.length words2.length : ℚ)

/-- The similarity as the specification words it ("exact
case/whitespace-normalized match → 1.0; else the fraction of shared
whitespace-delimited words over the max word count"): a second
definition following the spec, to be compared with `similarity`. -/
def specSimilarity (str1 str2 : String) : ℚ :=
  let s1 := jsTrim (jsLower str1)
  let s2 := jsTrim (jsLower str2)
  if s1 = s2 then 1
  else
    let words1 := jsSplitWs s1
    let words2 := jsSplitWs s2
    let commonWords := words1.filter (fun word => words2.contains word)
    (commonWords.length : ℚ) / (max words1.length words2.length : ℚ)

/-- One YouTube Music search result, with the fields `findBestMatch`
and the result construction in `searchTrack` read:
`name`, `videoId`, `artist?.name`, `artists?.[0]?.name`,
`duration` (`null` or an object carrying `seconds`), `thumbnails`. -/
structure YTResult where
  videoId : String
  name : String
  artistName : Option String
  artistsHeadName : Option String
  durationSeconds : Option Int
  thumbnails : List String
deriving Repr, DecidableEq

/-- The score `findBestMatch` accumulates before the duration penalty:
`titleSimilarity * 0.7` plus, when the original artist is truthy and a
result artist field is truthy, `artistSimilarity * 0.3` (the
`artist?.name` field is preferred over `artists?.[0]?.name`). -/
def ytCompositeScore (originalTitle originalArtist : String) (r : YTResult) : ℚ :=
  similarity r.name originalTitle * (7/10) +
    (if strTruthy originalArtist ∧ optStrTruthy r.artistName then
      similarity (r.artistName.getD "") originalArtist * (3/10)
    else if strTruthy originalArtist ∧ optStrTruthy r.artistsHeadName then
      similarity (r.artistsHeadName.getD "") originalArtist * (3/10)
    else 0)

/-- The full score of `findBestMatch`: composite score, then
`score *= 0.8` when `result.duration && result.duration.seconds < 60`. -/
def ytScore (originalTitle originalArtist : String) (r : YTResult) : ℚ :=
  let score := ytCompositeScore originalTitle originalArtist r
  match r.durationSeconds with
  | some d => if d < 60 then score * (8/10) else score
  | none => score

/-- `findBestMatch(results, originalTitle, originalArtist)` of
`youtubeMusicService.js`: `null` on no results, the sole element of a
singleton list unconditionally, otherwise the head of the list of
scored results sorted by descending score.  The JS engine sort is
stable, which `List.insertionSort` with the non-strict `≥` relation
reproduces (ties keep original provider order). -/
def findBestMatch (results : List YTResult) (originalTitle originalArtist : String) :
    Option YTResult :=
  match results with
  | [] => none
  | [r] => some r
  | _ =>
    let scored := results.map (fun r => (r, ytScore originalTitle originalArtist r))
    let sorted := scored.insertionSort (fun a b => a.2 ≥ b.2)
    (sorted.head?).map (·.1)

/-- One Spotify search result, with the fields `findBestSpotifyMatch`
reads: `name`, `artists?.[0]?.name`, `popularity`, `uri`. -/
structure SpResult where
  uri : String
  name : String
  artistsHeadName : Option String
  popularity : Option Int
deriving Repr, DecidableEq

/-- The score `findBestSpotifyMatch` accumulates before the popularity
bonus. -/
def spCompositeScore (originalTitle originalArtist : String) (r : SpResult) : ℚ :=
  similarity r.name originalTitle * (7/10) +
    (if strTruthy originalArtist ∧ optStrTruthy r.artistsHeadName then
      similarity (r.artistsHeadName.getD "") originalArtist * (3/10)
    else 0)

/-- The full score of `findBestSpotifyMatch`: composite score, plus
`0.1` when `result.popularity && result.popularity > 50`. -/
def spScore (originalTitle originalArtist : String) (r : SpResult) : ℚ :=
  let score := spCompositeScore originalTitle originalArtist r
  match r.popularity with
  | some p => if 0 < p ∧ 50 < p then score + (1/10) else score
  | none => score

/-- `findBestSpotifyMatch(results, originalTitle, originalArtist)` of
the Spotify service. -/
def findBestSpotifyMatch (results : List SpResult) (originalTitle originalArtist : String) :
    Option SpResult :=
  match results with
  | [] => none
  | [r] => some r
  | _ =>
    let scored := results.map (fun r => (r, spScore originalTitle originalArtist r))
    let sorted := scored.insertionSort (fun a b => a.2 ≥ b.2)
    (sorted.head?).map (·.1)

/-! ## Track resolution batching

`youtubeMusicService.searchMultipleTracks` (batch size 3) and
`spotifyService.searchMultipleSpotifyTracks` (batch size 5): the songs
are processed in fixed-size batches; within a batch each song is
resolved under a per-song `try/catch` that degrades a throw to a
not-found result; batch results are appended positionally.

The per-song resolution (`this.searchTrack(...)` resp.
`searchSpotifyTrack(...)`) is modelled as an oracle
`Song → Except Unit _` so that a throwing candidate is expressible. -/

/-- A `(title, artist)` candidate produced by the generator. -/
structure Song where
  title : String
  artist : String
deriving Repr, DecidableEq

/-- The YouTube-side per-song enrichment result stored by
`searchTrack`: `videoId`, matched `title`/`artist`, `duration`,
`thumbnails`, `playbackUrl`. -/
structure YTInfo where
  videoId : String
  title : String
  artist : String
  durationSeconds : Option Int
  thumbnails : List String
  playbackUrl : String
deriving Repr, DecidableEq

/-- An element of the `searchMultipleTracks` output:
`{ ...song, youtubeMusic: result-or-null }`. -/
structure YTSongRes where
  song : Song
  youtubeMusic : Option YTInfo
deriving Repr, DecidableEq

/-- The per-song body of the batch map in `searchMultipleTracks`:
`try { result = await searchTrack(...); return {...song, youtubeMusic: result} }
 catch { return {...song, youtubeMusic: null} }`. -/
def resolveOneCaught (resolve : Song → Except Unit (Option YTInfo)) (s : Song) : YTSongRes :=
  match resolve s with
  | .ok r => ⟨s, r⟩
  | .error _ => ⟨s, none⟩

/-- `searchMultipleTracks(songs)`: process in batches of 3, appending
each batch result positionally (`Promise.all` keeps the order of the
mapped batch). -/
def searchMultipleTracks (resolve : Song → Except Unit (Option YTInfo)) :
    List Song → List YTSongRes
  | [] => []
  | s :: rest =>
    ((s :: rest).take 3).map (resolveOneCaught resolve) ++
      searchMultipleTracks resolve ((s :: rest).drop 3)
termination_by l => l.length
decreasing_by
  simp only [List.length_cons, List.length_drop]
  omega

/-- An element of the `searchMultipleSpotifyTracks` output:
`{ ...song, uri, found: !!uri }`. -/
structure SpSongRes where
  song : Song
  uri : Option String
  found : Bool
deriving Repr, DecidableEq

/-- The per-song body of the batch map in
`searchMultipleSpotifyTracks`: on success `found = !!uri`, on a throw
`uri = null, found = false`. -/
def resolveOneSpotifyCaught (resolve : Song → Except Unit (Option String)) (s : Song) :
    SpSongRes :=
  match resolve s with
  | .ok u => ⟨s, u, optStrTruthy u⟩
  | .error _ => ⟨s, none, false⟩

/-- `searchMultipleSpotifyTracks(accessToken, songs)`: batches of 5. -/
def searchMultipleSpotifyTracks (resolve : Song → Except Unit (Option String)) :
    List Song → List SpSongRes
  | [] => []
  | s :: rest =>
    ((s :: rest).take 5).map (resolveOneSpotifyCaught resolve) ++
      searchMultipleSpotifyTracks resolve ((s :: rest).drop 5)
termination_by l => l.length
decreasing_by
  simp only [List.length_cons, List.length_drop]
  omega

/-! ## `addTracksToSpotifyPlaylist` (spotifyService)

```js
if (trackUris.length === 0) { return null; }
const uniqueTrackUris = Array.from(new Set(trackUris));
if (uniqueTrackUris.length > 100) { uniqueTrackUris.splice(100); }
// ... POST with { uris: uniqueTrackUris }
```
A JS `Set` iterates in insertion order of first occurrences, which the
fold below reproduces.  The embedding returns `none` for the
early-return-`null` case (no provider request) and `some sent` for the
URI list posted to the provider. -/

/-- `Array.from(new Set(l))`: first occurrences, in order. -/
def jsSetDedup [DecidableEq α] (l : List α) : List α :=
  l.foldl (fun acc x => if acc.contains x then acc else acc ++ [x]) []

/-- The pure content of `addTracksToSpotifyPlaylist`: which URI list
(if any) is sent to the provider. -/
def addTracksToSpotifyPlaylist (trackUris : List String) : Option (List String) :=
  if trackUris.length = 0 then none
  else
    let uniqueTrackUris := jsSetDedup trackUris
    some (if uniqueTrackUris.length > 100 then uniqueTrackUris.take 100 else uniqueTrackUris)

/-! ## JSON values and strict `JSON.parse`

`parseJsonFromGeminiResponse` rests on `JSON.parse`; the embedding
implements a strict JSON recursive-descent parser (objects, arrays,
strings with escapes, numbers, literals) with explicit fuel (one unit
of fuel is spent per recursion step and every step consumes at least
one character, so `length + 1` fuel never runs out). -/

inductive JsVal where
  | jnull
  | jbool (b : Bool)
  | jnum (q : ℚ)
  | jstr (s : String)
  | jarr (elems : List JsVal)
  | jobj (fields : List (String × JsVal))
deriving Repr

/-- JSON whitespace (`JSON.parse` only skips these four). -/
def isJsonWs (c : Char) : Bool :=
  c = ' ' ∨ c = '\t' ∨ c = '\n' ∨ c = '\r'

/-- Skip JSON whitespace. -/
def jsonSkipWs (l : List Char) : List Char := l.dropWhile isJsonWs

/-- ASCII digit test. -/
def isDigitChar (c : Char) : Bool := '0' ≤ c ∧ c ≤ '9'

/-- Value of a hex digit, if any. -/
def hexVal (c : Char) : Option Nat :=
  if '0' ≤ c ∧ c ≤ '9' then some (c.toNat - 48)
  else if 'a' ≤ c ∧ c ≤ 'f' then some (c.toNat - 87)
  else if 'A' ≤ c ∧ c ≤ 'F' then some (c.toNat - 55)
  else none

/-- Digits to a natural number. -/
def digitsToNat (l : List Char) : Nat :=
  l.foldl (fun n c => n * 10 + (c.toNat - 48)) 0

/-- Parse the body of a JSON string (opening quote already consumed). -/
def parseStringBody : Nat → List Char → List Char → Except String (String × List Char)
  | 0, _, _ => .error "fuel"
  | fuel+1, l, acc =>
    match l with
    | [] => .error "unterminated string"
    | c :: rest =>
      if c = '"' then .ok (⟨acc.reverse⟩, rest)
      else if c = '\\' then
        match rest with
        | [] => .error "bad escape"
        | e :: rest2 =>
          if e = '"' ∨ e = '\\' ∨ e = '/' then parseStringBody fuel rest2 (e :: acc)
          else if e = 'b' then parseStringBody fuel rest2 ('\x08' :: acc)
          else if e = 'f' then parseStringBody fuel rest2 ('\x0c' :: acc)
          else if e = 'n' then parseStringBody fuel rest2 ('\n' :: acc)
          else if e = 'r' then parseStringBody fuel rest2 ('\x0d' :: acc)
          else if e = 't' then parseStringBody fuel rest2 ('\t' :: acc)
          else if e = 'u' then
            match rest2 with
            | h1 :: h2 :: h3 :: h4 :: rest3 =>
              match hexVal h1, hexVal h2, hexVal h3, hexVal h4 with
              | some a, some b, some c, some d =>
                parseStringBody fuel rest3 (Char.ofNat (((a * 16 + b) * 16 + c) * 16 + d) :: acc)
              | _, _, _, _ => .error "bad unicode escape"
            | _ => .error "bad unicode escape"
          else .error "bad escape"
      else if c.toNat < 32 then .error "control character in string"
      else parseStringBody fuel rest (c :: acc)

/-- Parse a strict JSON number starting at the head of `l`. -/
def parseJsonNumber (l : List Char) : Except String (ℚ × List Char) :=
  let (neg, l1) := match l with
    | c :: rest => if c = '-' then (true, rest) else (false, l)
    | [] => (false, l)
  let intDigits := l1.takeWhile isDigitChar
  if intDigits = [] then .error "expected digits"
  else if intDigits.length > 1 ∧ intDigits.head? = some '0' then .error "leading zero"
  else
    let l2 := l1.drop intDigits.length
    let (fracDigits, l3) := match l2 with
      | c :: rest =>
        if c = '.' then (rest.takeWhile isDigitChar, rest.drop (rest.takeWhile isDigitChar).length)
        else ([], l2)
      | [] => ([], l2)
    if l2 ≠ [] ∧ l2.head? = some '.' ∧ fracDigits = [] then .error "expected fraction digits"
    else
      let (hasExp, expNeg, expDigits, l4) := match l3 with
        | c :: rest =>
          if c = 'e' ∨ c = 'E' then
            match rest with
            | d :: rest2 =>
              if d = '+' then (true, false, rest2.takeWhile isDigitChar, rest2.drop (rest2.takeWhile isDigitChar).length)
              else if d = '-' then (true, true, rest2.takeWhile isDigitChar, rest2.drop (rest2.takeWhile isDigitChar).length)
              else (true, false, rest.takeWhile isDigitChar, rest.drop (rest.takeWhile isDigitChar).length)
            | [] => (true, false, [], rest)
          else (false, false, [], l3)
        | [] => (false, false, [], l3)
      if hasExp ∧ expDigits = [] then .error "expected exponent digits"
      else
        let mant : Int := (if neg then -1 else 1) *
          ((digitsToNat intDigits) * 10 ^ fracDigits.length + digitsToNat fracDigits)
        let base : ℚ := (mant : ℚ) / ((10 : ℚ) ^ fracDigits.length)
        let q : ℚ :=
          if hasExp then
            if expNeg then base / ((10 : ℚ) ^ digitsToNat expDigits)
            else base * ((10 : ℚ) ^ digitsToNat expDigits)
          else base
        .ok (q, l4)

mutual

/-- Parse one JSON value (leading whitespace allowed). -/
def parseVal : Nat → List Char → Except String (JsVal × List Char)
  | 0, _ => .error "fuel"
  | fuel+1, l =>
    let l := jsonSkipWs l
    match l with
    | [] => .error "unexpected end of input"
    | c :: rest =>
      if c = lbraceChar then parseObjStart fuel rest
      else if c = '[' then parseArrStart fuel rest
      else if c = '"' then
        match parseStringBody fuel rest [] with
        | .ok (s, r) => .ok (.jstr s, r)
        | .error e => .error e
      else if l.take 4 = ['n', 'u', 'l', 'l'] then .ok (.jnull, l.drop 4)
      else if l.take 4 = ['t', 'r', 'u', 'e'] then .ok (.jbool true, l.drop 4)
      else if l.take 5 = ['f', 'a', 'l', 's', 'e'] then .ok (.jbool false, l.drop 5)
      else if c = '-' ∨ isDigitChar c then
        match parseJsonNumber l with
        | .ok (q, r) => .ok (.jnum q, r)
        | .error e => .error e
      else .error "unexpected token"

/-- Parse an array after the opening bracket. -/
def parseArrStart : Nat → List Char → Except String (JsVal × List Char)
  | 0, _ => .error "fuel"
  | fuel+1, l =>
    match jsonSkipWs l with
    | c :: rest =>
      if c = ']' then .ok (.jarr [], rest)
      else parseArrLoop fuel (jsonSkipWs l) []
    | [] => .error "unterminated array"

/-- Parse array elements separated by commas, up to the closing bracket. -/
def parseArrLoop : Nat → List Char → List JsVal → Except String (JsVal × List Char)
  | 0, _, _ => .error "fuel"
  | fuel+1, l, acc =>
    match parseVal fuel l with
    | .error e => .error e
    | .ok (v, r) =>
      match jsonSkipWs r with
      | c :: r2 =>
        if c = ',' then parseArrLoop fuel r2 (v :: acc)
        else if c = ']' then .ok (.jarr (v :: acc).reverse, r2)
        else .error "expected comma or bracket"
      | [] => .error "unterminated array"

/-- Parse an object after the opening brace. -/
def parseObjStart : Nat → List Char → Except String (JsVal × List Char)
  | 0, _ => .error "fuel"
  | fuel+1, l =>
    match jsonSkipWs l with
    | c :: rest =>
      if c = rbraceChar then .ok (.jobj [], rest)
      else parseObjLoop fuel (jsonSkipWs l) []
    | [] => .error "unterminated object"

/-- Parse object members separated by commas, up to the closing brace. -/
def parseObjLoop : Nat → List Char → List (String × JsVal) → Except String (JsVal × List Char)
  | 0, _, _ => .error "fuel"
  | fuel+1, l, acc =>
    match l with
    | c :: rest =>
      if c = '"' then
        match parseStringBody fuel rest [] with
        | .error e => .error e
        | .ok (k, r) =>
          match jsonSkipWs r with
          | d :: r2 =>
            if d = ':' then
              match parseVal fuel r2 with
              | .error e => .error e
              | .ok (v, r3) =>
                match jsonSkipWs r3 with
                | e :: r4 =>
                  if e = ',' then parseObjLoop fuel (jsonSkipWs r4) ((k, v) :: acc)
                  else if e = rbraceChar then .ok (.jobj ((k, v) :: acc).reverse, r4)
                  else .error "expected comma or brace"
                | [] => .error "unterminated object"
            else .error "expected colon"
          | [] => .error "unterminated object"
      else .error "expected key"
    | [] => .error "unterminated object"

end

/-- `JSON.parse(s)`: one value, then only trailing whitespace. -/
def jsonParse (s : String) : Except String JsVal :=
  match parseVal (s.data.length + 1) s.data with
  | .error e => .error e
  | .ok (v, rest) =>
    if jsonSkipWs rest = [] then .ok v else .error "trailing characters"

/-! ## Fence stripping (`parseJsonFromGeminiResponse`, stage 0)

```js
let jsonStr = text.trim();
const fenceRegex = /^```(\w*)?\s*\n?(.*?)\n?\s*```$/s;
const match = jsonStr.match(fenceRegex);
if (match && match[2]) { jsonStr = match[2].trim(); }
```
Because the extracted group is trimmed again, the greedy/lazy
whitespace boundaries of the regex collapse to: strip the two fences
and the word-character language tag and trim the middle; the lone
`match[2]` truthiness check makes an empty middle keep the original
string. -/

/-- JS `\w` class. -/
def isWordChar (c : Char) : Bool :=
  ('a' ≤ c ∧ c ≤ 'z') ∨ ('A' ≤ c ∧ c ≤ 'Z') ∨ ('0' ≤ c ∧ c ≤ '9') ∨ c = '_'

/-- Trim, then remove a wrapping triple-backtick fence (with optional
language tag) if present and the fenced middle is non-empty. -/
def stripFence (text : String) : String :=
  let t := trimList text.data
  let fence := [btickChar, btickChar, btickChar]
  if t.take 3 = fence ∧ 6 ≤ t.length ∧ t.drop (t.length - 3) = fence then
    let inner := (t.drop 3).take (t.length - 6)
    let mid := trimList (inner.dropWhile isWordChar)
    if mid = [] then ⟨t⟩ else ⟨mid⟩
  else ⟨t⟩

/-! ## Quote normalization (`normalizeJsonQuotes`)

Four global regex replacements, applied in sequence:
1. `/([{,]\s*)['"`]([^'"`]+)['"`]\s*:/g` → `$1"$2":`
2. `/:\s*['`]([^'`]*)['`]/g` → `: "$1"`
3. `/:\s*"([^"]*)'(\s*[,}])/g` → `: "$1"$2`
4. `/:\s*'([^']*)"(\s*[,}])/g` → `: "$1"$2`
and a fifth replacement that escapes double quotes inside
double-quoted values — which is the identity, because its value
capture group `[^"]*` cannot contain a double quote, so its
`value.includes('"')` guard is always false.

Each replacement is a left-to-right scan: at each position the pattern
is tried (its quantifiers are effectively deterministic here, except
for the greedy `[^"]*` of patterns 3/4 whose backtracking is the
"latest stray quote" search of `lastStraySplit`); on a match the
replacement is emitted and the scan resumes after the match. -/

/-- One of the three quote characters. -/
def isQuote3 (c : Char) : Bool :=
  c = '"' ∨ c = squoteChar ∨ c = btickChar

/-- Generic global-replace scan driver (fuel: one unit per position). -/
def replaceScan (tryM : List Char → Option (List Char × List Char)) :
    Nat → List Char → List Char
  | 0, l => l
  | _, [] => []
  | fuel+1, c :: rest =>
    match tryM (c :: rest) with
    | some (rep, rest2) => rep ++ replaceScan tryM fuel rest2
    | none => c :: replaceScan tryM fuel rest

/-- Matcher of replacement 1 (re-quote an object key). -/
def quoteKeyMatch (l : List Char) : Option (List Char × List Char) :=
  match l with
  | [] => none
  | c :: rest =>
    if c = lbraceChar ∨ c = ',' then
      let ws := rest.takeWhile isWsChar
      match rest.drop ws.length with
      | [] => none
      | q1 :: r2 =>
        if isQuote3 q1 then
          let body := r2.takeWhile (fun d => ¬ isQuote3 d)
          if body ≠ [] then
            match r2.drop body.length with
            | [] => none
            | _ :: r3 =>
              let ws2 := r3.takeWhile isWsChar
              match r3.drop ws2.length with
              | d :: r4 =>
                if d = ':' then some ((c :: ws) ++ ('"' :: body) ++ ['"', ':'], r4)
                else none
              | [] => none
          else none
        else none
    else none

/-- Matcher of replacement 2 (re-quote a value quoted with single
quotes or backticks). -/
def quoteValMatch (l : List Char) : Option (List Char × List Char) :=
  match l with
  | [] => none
  | c :: rest =>
    if c = ':' then
      let ws := rest.takeWhile isWsChar
      match rest.drop ws.length with
      | [] => none
      | q1 :: r2 =>
        if q1 = squoteChar ∨ q1 = btickChar then
          let body := r2.takeWhile (fun d => ¬ (d = squoteChar ∨ d = btickChar))
          match r2.drop body.length with
          | [] => none
          | _ :: r3 => some ((':' :: ' ' :: '"' :: body) ++ ['"'], r3)
        else none
    else none

/-- Backtracking search of the greedy `[^Q]*` of replacements 3/4: the
latest occurrence of the stray quote `mark` that is followed by
whitespace and then `,` or a closing brace.  Returns the group before
the mark, the whitespace run, the terminator, and the remainder. -/
def lastStraySplit (mark : Char) : List Char → Option (List Char × List Char × Char × List Char)
  | [] => none
  | c :: rest =>
    match lastStraySplit mark rest with
    | some (g, w, t, ra) => some (c :: g, w, t, ra)
    | none =>
      if c = mark then
        let w := rest.takeWhile isWsChar
        match rest.drop w.length with
        | d :: ra => if d = ',' ∨ d = rbraceChar then some ([], w, d, ra) else none
        | [] => none
      else none

/-- Matcher of replacement 3 (double-quoted value closed by a stray
single quote before `,` or a brace). -/
def mixedQuoteMatchA (l : List Char) : Option (List Char × List Char) :=
  match l with
  | [] => none
  | c :: rest =>
    if c = ':' then
      let ws := rest.takeWhile isWsChar
      match rest.drop ws.length with
      | [] => none
      | q1 :: r2 =>
        if q1 = '"' then
          let body := r2.takeWhile (fun d => ¬ d = '"')
          let beyond := r2.drop body.length
          match lastStraySplit squoteChar body with
          | some (g, w, t, ra) =>
            some (((':' :: ' ' :: '"' :: g) ++ ['"']) ++ w ++ [t], ra ++ beyond)
          | none => none
        else none
    else none

/-- Matcher of replacement 4 (single-quoted value closed by a stray
double quote before `,` or a brace). -/
def mixedQuoteMatchB (l : List Char) : Option (List Char × List Char) :=
  match l with
  | [] => none
  | c :: rest =>
    if c = ':' then
      let ws := rest.takeWhile isWsChar
      match rest.drop ws.length with
      | [] => none
      | q1 :: r2 =>
        if q1 = squoteChar then
          let body := r2.takeWhile (fun d => ¬ d = squoteChar)
          let beyond := r2.drop body.length
          match lastStraySplit '"' body with
          | some (g, w, t, ra) =>
            some (((':' :: ' ' :: '"' :: g) ++ ['"']) ++ w ++ [t], ra ++ beyond)
          | none => none
        else none
    else none

/-- `normalizeJsonQuotes(str)`. -/
def normalizeJsonQuotes (s : String) : String :=
  let l1 := replaceScan quoteKeyMatch s.data.length s.data
  let l2 := replaceScan quoteValMatch l1.length l1
  let l3 := replaceScan mixedQuoteMatchA l2.length l2
  let l4 := replaceScan mixedQuoteMatchB l3.length l3
  ⟨l4⟩

/-! ## Regex field extraction (`createValidJsonFromText`)

```js
const titleMatch = text.match(/(?:title['"`]?\s*[:=]\s*['"`]?)([^'"`\n]+)['"`]?/i);
const descMatch  = text.match(/(?:description['"`]?\s*[:=]\s*['"`]?)([^'"`\n]+)['"`]?/i);
const songsSection = text.match(/songs['"`]?\s*[:=]\s*\[([^\]]+)\]/is);
const songMatches = songsText.match(/\{[^}]+\}/g);
// per block: /(?:title['"`]?\s*[:=]\s*['"`]?)([^'"`\n,}]+)/i and the same for artist
```
The scan tries the pattern at each successive index.  Within one
attempt the only productive backtracking is over the `\s*` after the
`[:=]` and the optional value quote, replayed by `fieldValueBack`
(largest whitespace consumption first, quote-consuming branch first,
exactly the engine's preference order). -/

/-- Case-insensitive keyword match at the head of the list; returns
the remainder on success (the keyword is given lowercased). -/
def matchKeyCI (key : List Char) (l : List Char) : Option (List Char) :=
  if (l.take key.length).map lowerChar = key then some (l.drop key.length) else none

/-- Try to read the captured value group at `r` (positioned just after
some prefix of the whitespace following `[:=]`): first with an
optional leading quote, then without. -/
def fieldValueAt (stop : Char → Bool) (r : List Char) : Option (List Char) :=
  match r with
  | [] => none
  | c :: rest =>
    let withQuote : Option (List Char) :=
      if isQuote3 c then
        let body := rest.takeWhile (fun d => ¬ stop d)
        if body ≠ [] then some body else none
      else none
    match withQuote with
    | some b => some b
    | none =>
      let body := (c :: rest).takeWhile (fun d => ¬ stop d)
      if body ≠ [] then some body else none

/-- Replay the backtracking over the `\s*` after `[:=]`: try the
largest whitespace consumption `n` first, down to zero. -/
def fieldValueBack (stop : Char → Bool) (afterColon : List Char) : Nat → Option (List Char)
  | 0 => fieldValueAt stop afterColon
  | i+1 =>
    match fieldValueAt stop (afterColon.drop (i+1)) with
    | some b => some b
    | none => fieldValueBack stop afterColon i

/-- Try the whole field pattern at the head of `l`. -/
def tryFieldAt (key : List Char) (stop : Char → Bool) (l : List Char) : Option (List Char) :=
  match matchKeyCI key l with
  | none => none
  | some r0 =>
    let r1 := match r0 with
      | c :: rest => if isQuote3 c then rest else r0
      | [] => r0
    let ws := r1.takeWhile isWsChar
    match r1.drop ws.length with
    | c :: rest =>
      if c = ':' ∨ c = '=' then
        fieldValueBack stop rest (rest.takeWhile isWsChar).length
      else none
    | [] => none

/-- Scan for the first position where the field pattern matches. -/
def extractField (key : List Char) (stop : Char → Bool) : List Char → Option (List Char)
  | [] => none
  | c :: rest =>
    match tryFieldAt key stop (c :: rest) with
    | some b => some b
    | none => extractField key stop rest

/-- Stop set of the top-level `title`/`description` groups. -/
def stopField (c : Char) : Bool := isQuote3 c ∨ c = '\n'

/-- Stop set of the per-song `title`/`artist` groups. -/
def stopSongField (c : Char) : Bool :=
  isQuote3 c ∨ c = '\n' ∨ c = ',' ∨ c = rbraceChar

/-- Try the songs-section pattern at the head of `l`: the bracketed
group after `songs['"`]?\s*[:=]\s*`. -/
def trySongsSectionAt (l : List Char) : Option (List Char) :=
  match matchKeyCI ['s', 'o', 'n', 'g', 's'] l with
  | none => none
  | some r0 =>
    let r1 := match r0 with
      | c :: rest => if isQuote3 c then rest else r0
      | [] => r0
    let ws := r1.takeWhile isWsChar
    match r1.drop ws.length with
    | c :: rest =>
      if c = ':' ∨ c = '=' then
        let ws2 := rest.takeWhile isWsChar
        match rest.drop ws2.length with
        | d :: r2 =>
          if d = '[' then
            let body := r2.takeWhile (fun x => ¬ x = ']')
            if body ≠ [] ∧ r2.drop body.length ≠ [] then some body else none
          else none
        | [] => none
      else none
    | [] => none

/-- Scan for the songs section. -/
def extractSongsSection : List Char → Option (List Char)
  | [] => none
  | c :: rest =>
    match trySongsSectionAt (c :: rest) with
    | some b => some b
    | none => extractSongsSection rest

/-- All matches of `/\{[^}]+\}/g` (the block bodies; the enclosing
braces carry no information for the per-song field extraction). -/
def extractBlocks : Nat → List Char → List (List Char)
  | 0, _ => []
  | fuel+1, l =>
    match l with
    | [] => []
    | c :: rest =>
      if c = lbraceChar then
        let body := rest.takeWhile (fun d => ¬ d = rbraceChar)
        if body ≠ [] then
          match rest.drop body.length with
          | _ :: rest2 => body :: extractBlocks fuel rest2
          | [] => extractBlocks fuel rest
        else extractBlocks fuel rest
      else extractBlocks fuel rest

/-- The object `createValidJsonFromText` builds by hand. -/
structure ExtractedPlaylist where
  title : String
  description : String
  songs : List (String × String)
deriving Repr, DecidableEq

/-- Extract one `{title, artist}` pair from a block body. -/
def blockToSong (body : List Char) : Option (String × String) :=
  match extractField ['t', 'i', 't', 'l', 'e'] stopSongField body,
        extractField ['a', 'r', 't', 'i', 's', 't'] stopSongField body with
  | some t, some a => some (⟨trimList t⟩, ⟨trimList a⟩)
  | _, _ => none

/-- The fixed stage-6 emergency payload of the source (returned only
if the extraction itself were to throw, which the total embedding
cannot do — it is retained to document the last resort). -/
def emergencyPlaylist : ExtractedPlaylist :=
  { title := "Emergency Classical Playlist"
  , description := "System-generated backup playlist"
  , songs :=
      [ ("Canon in D Major", "Johann Pachelbel")
      , ("Clair de Lune", "Claude Debussy")
      , ("Ave Maria", "Franz Schubert")
      , ("Eine kleine Nachtmusik", "Wolfgang Amadeus Mozart")
      , ("Spring (The Four Seasons)", "Antonio Vivaldi")
      , ("Fur Elise", "Ludwig van Beethoven")
      , ("Gymnopedie No. 1", "Erik Satie")
      , ("The Swan", "Camille Saint-Saens")
      , ("Barcarolle", "Jacques Offenbach")
      , ("Air on the G String", "Johann Sebastian Bach") ] }

/-- `createValidJsonFromText(text)`: regex extraction with defaults
and `songs.slice(0, 10)`. -/
def createValidJsonFromText (text : String) : ExtractedPlaylist :=
  let l := text.data
  let titleM := extractField ['t', 'i', 't', 'l', 'e'] stopField l
  let descM := extractField ['d', 'e', 's', 'c', 'r', 'i', 'p', 't', 'i', 'o', 'n'] stopField l
  let songs := match extractSongsSection l with
    | some sec => (extractBlocks sec.length sec).filterMap blockToSong
    | none => []
  { title := match titleM with
      | some t => ⟨trimList t⟩
      | none => "Classical Playlist"
  , description := match descM with
      | some d => ⟨trimList d⟩
      | none => "A curated collection of classical music"
  , songs := songs.take 10 }

/-- View an `ExtractedPlaylist` as the JSON object stage 5 returns. -/
def ExtractedPlaylist.toJsVal (p : ExtractedPlaylist) : JsVal :=
  .jobj
    [ ("title", .jstr p.title)
    , ("description", .jstr p.description)
    , ("songs", .jarr (p.songs.map (fun s => .jobj [("title", .jstr s.1), ("artist", .jstr s.2)]))) ]

/-! ## The repair parser (`parseJsonFromGeminiResponse` of `part_007`)
and the strict near-duplicate of `src/services/aiService.js`. -/

/-- The multi-strategy repair parser: fence strip, strict parse,
quote-normalized strict parse, regex extraction.  Total by
construction — every `JSON.parse` throw is caught, and the extraction
stage cannot throw. -/
def parseJsonFromGeminiResponse (text : String) : JsVal :=
  let jsonStr := stripFence text
  match jsonParse jsonStr with
  | .ok v => v
  | .error _ =>
    match jsonParse (normalizeJsonQuotes jsonStr) with
    | .ok v => v
    | .error _ => (createValidJsonFromText jsonStr).toJsVal

/-- The near-duplicate parser of `src/services/aiService.js`, which
only strips the fence and rethrows a strict-parse failure. -/
def parseJsonFromGeminiResponseStrict (text : String) : Except String JsVal :=
  match jsonParse (stripFence text) with
  | .ok v => .ok v
  | .error _ => .error "Failed to parse AI response as JSON."

/-- The well-formedness the claim attributes to every parser result:
an object with non-empty `title`, non-empty `description` and a
non-empty `songs` array. -/
def hasPlaylistShape : JsVal → Bool
  | .jobj fields =>
    (match (fields.find? (fun p => p.1 = "title")).map (·.2) with
      | some (JsVal.jstr t) => decide (t ≠ "")
      | _ => false) &&
    (match (fields.find? (fun p => p.1 = "description")).map (·.2) with
      | some (JsVal.jstr d) => decide (d ≠ "")
      | _ => false) &&
    (match (fields.find? (fun p => p.1 = "songs")).map (·.2) with
      | some (JsVal.jarr songs) => !songs.isEmpty
      | _ => false)
  | _ => false

/-! ## JS property access and the generator validation
(`generateClassicalPlaylist` / `generateFallbackClassicalPlaylist`)

Property access `x.k` throws a `TypeError` when `x` is `null` or
`undefined` (modelled as `.error`), yields the field of an object, and
yields `undefined` (conflated with `null` in `JsVal`) on any other
primitive. -/

/-- JS truthiness of a `JsVal`. -/
def jsTruthy : JsVal → Bool
  | .jnull => false
  | .jbool b => b
  | .jnum q => decide (q ≠ 0)
  | .jstr s => decide (s ≠ "")
  | .jarr _ => true
  | .jobj _ => true

/-- `typeof x === "string"`. -/
def isJsStr : JsVal → Bool
  | .jstr _ => true
  | _ => false

/-- Throwing property access `x.k`. -/
def jsGetProp : JsVal → String → Except String JsVal
  | .jnull, _ => .error "TypeError: cannot read properties of null"
  | .jobj fields, k => .ok (((fields.find? (fun p => p.1 = k)).map (·.2)).getD .jnull)
  | _, _ => .ok .jnull

/-- Non-throwing property access used only where the receiver is known
to be an object (after validation). -/
def jsGetPropD (v : JsVal) (k : String) : JsVal :=
  match v with
  | .jobj fields => ((fields.find? (fun p => p.1 = k)).map (·.2)).getD .jnull
  | _ => .jnull

/-- String content of a property, defaulting to `""`. -/
def jsStrPropD (v : JsVal) (k : String) : String :=
  match jsGetPropD v k with
  | .jstr s => s
  | _ => ""

/-- Property assignment `x.k = v` on an object (update or append). -/
def jsSetProp (v : JsVal) (k : String) (nv : JsVal) : JsVal :=
  match v with
  | .jobj fields =>
    .jobj (if fields.any (fun p => p.1 = k) then
      fields.map (fun p => if p.1 = k then (k, nv) else p)
    else fields ++ [(k, nv)])
  | _ => v

/-- The short-circuiting
`songs.some(song => typeof song.title !== "string" || typeof song.artist !== "string")`
(a `null` element reached before a failure throws a `TypeError`). -/
def checkSongsFormat : List JsVal → Except String Bool
  | [] => .ok false
  | song :: rest => do
    let t ← jsGetProp song "title"
    if ¬ isJsStr t then .ok true
    else do
      let a ← jsGetProp song "artist"
      if ¬ isJsStr a then .ok true
      else checkSongsFormat rest

/-- The validation-and-truncation block shared verbatim by
`generateClassicalPlaylist` (both near-duplicate implementations) and
by the `part_007` `generateFallbackClassicalPlaylist`: reject missing
`title`/`description`/non-array `songs`, reject an empty `songs`
array, reject non-string song fields, then truncate `songs` to the
first 10 when longer. -/
def validateGeneratedPlaylist (rawData : JsVal) : Except String JsVal := do
  let t ← jsGetProp rawData "title"
  let d ← jsGetProp rawData "description"
  let s ← jsGetProp rawData "songs"
  match s with
  | .jarr songs =>
    if ¬ jsTruthy t ∨ ¬ jsTruthy d then
      .error "AI response is missing required fields (title, description, or songs)."
    else if songs.length = 0 then
      .error "AI returned no songs for the playlist."
    else do
      let bad ← checkSongsFormat songs
      if bad then
        .error "AI response for songs has an invalid format (title or artist is not a string)."
      else
        .ok (if songs.length > 10 then jsSetProp rawData "songs" (.jarr (songs.take 10)) else rawData)
  | _ => .error "AI response is missing required fields (title, description, or songs)."

/-- `generateClassicalPlaylist` after the model call (`part_007`
implementation: repair parser, then validation/truncation).  The model
outcome is an oracle: `.error` for a model-call throw, `.ok text` for
its raw text. -/
def generateClassicalPlaylist (modelResp : Except String String) : Except String JsVal :=
  match modelResp with
  | .error e => .error e
  | .ok text => validateGeneratedPlaylist (parseJsonFromGeminiResponse text)

/-- `generateFallbackClassicalPlaylist` of `part_007`: repair parser,
then the same validation/truncation. -/
def generateFallbackClassicalPlaylist (modelResp : Except String String) : Except String JsVal :=
  match modelResp with
  | .error e => .error e
  | .ok text => validateGeneratedPlaylist (parseJsonFromGeminiResponse text)

/-- `generateClassicalPlaylist` of `src/services/aiService.js`: strict
parser (throws on malformed JSON), then the same
validation/truncation. -/
def generateClassicalPlaylistAiServiceJs (modelResp : Except String String) : Except String JsVal :=
  match modelResp with
  | .error e => .error e
  | .ok text =>
    match parseJsonFromGeminiResponseStrict text with
    | .error e => .error e
    | .ok raw => validateGeneratedPlaylist raw

/-- `generateFallbackClassicalPlaylist` of `src/services/aiService.js`:
strict parser, then the parsed value is returned unchanged — this
near-duplicate has no validation and no truncation
(`return rawData;` directly after the parse and a log line). -/
def generateFallbackClassicalPlaylistAiServiceJs (modelResp : Except String String) :
    Except String JsVal :=
  match modelResp with
  | .error e => .error e
  | .ok text => parseJsonFromGeminiResponseStrict text

/-! ## Audio-feature refinement (`refinePlaylistWithAudioFeatures`) -/

/-- One element of `songsWithFeatures` (the audio-feature vector is
only serialized into the prompt and does not influence control flow,
so it is not modelled). -/
structure RefInputSong where
  title : String
  artist : String
  uri : Option String
  id : Option String
deriving Repr, DecidableEq

/-- The short-circuiting
`refinedSongs.some(song => !song.title || !song.artist || !song.uri)`. -/
def checkRefinedFormat : List JsVal → Except String Bool
  | [] => .ok false
  | song :: rest => do
    let t ← jsGetProp song "title"
    if ¬ jsTruthy t then .ok true
    else do
      let a ← jsGetProp song "artist"
      if ¬ jsTruthy a then .ok true
      else do
        let u ← jsGetProp song "uri"
        if ¬ jsTruthy u then .ok true
        else checkRefinedFormat rest

/-- `originalUris.has(refinedSong.uri)` for a `JsVal` uri (a Set of
strings only contains equal strings). -/
def uriInSet (uris : List String) : JsVal → Bool
  | .jstr u => uris.contains u
  | _ => false

/-- The `for`-loop over the refined songs: the first `uri` outside the
original set throws. -/
def refineCheckUris (uris : List String) : List JsVal → Except String Unit
  | [] => .ok ()
  | song :: rest => do
    let u ← jsGetProp song "uri"
    if uriInSet uris u then refineCheckUris uris rest
    else .error "AI refinement included a song with a URI not present in the original list."

/-- Validation applied to the parsed refinement response against the
eligible input set (`refinePlaylistWithAudioFeatures` after the model
call and parse). -/
def refineValidateParsed (validUris : List String) (refined : JsVal) :
    Except String (List JsVal) :=
  match refined with
  | .jarr refinedSongs => do
    let bad ← checkRefinedFormat refinedSongs
    if bad then .error "AI refinement response has an invalid format."
    else do
      let _ ← refineCheckUris validUris refinedSongs
      .ok refinedSongs
  | _ => .error "AI refinement response has an invalid format."

/-- `refinePlaylistWithAudioFeatures(userOriginalPrompt, songsWithFeatures)`:
filter to songs with truthy `uri` and `id`; with none, return the
mapped `{title, artist, uri}` list without calling the model; else
call the model (oracle), parse and validate. -/
def refinePlaylistWithAudioFeatures (songsWithFeatures : List RefInputSong)
    (modelResp : Except String String) : Except String (List JsVal) :=
  let validSongsForRefinement :=
    songsWithFeatures.filter (fun s => optStrTruthy s.uri && optStrTruthy s.id)
  if validSongsForRefinement.length = 0 then
    .ok ((songsWithFeatures.filter (fun s => optStrTruthy s.uri)).map (fun s =>
      JsVal.jobj [("title", .jstr s.title), ("artist", .jstr s.artist),
        ("uri", .jstr (s.uri.getD ""))]))
  else
    match modelResp with
    | .error e => .error e
    | .ok text =>
      refineValidateParsed (validSongsForRefinement.map (fun s => s.uri.getD ""))
        (parseJsonFromGeminiResponse text)

/-! ## The fallback in `createSpotifyPlaylistDirect` (spotifyController)

```js
try {
  const refinedSongs = await refinePlaylistWithAudioFeatures(userDescription, songsWithFeatures);
  foundSongs = refinedSongs;
} catch (refineError) {
  console.warn("Audio features refinement failed, using original order:", refineError);
}
```
-/

/-- `extractIdFromUri(uri)`: the group of `/spotify:track:([^:]+)/`. -/
def extractIdFromUriAux : List Char → Option String
  | [] => none
  | c :: rest =>
    let l := c :: rest
    if l.take 14 = "spotify:track:".data then
      let body := (l.drop 14).takeWhile (fun d => ¬ d = ':')
      if body ≠ [] then some ⟨body⟩ else extractIdFromUriAux rest
    else extractIdFromUriAux rest

/-- `extractIdFromUri` of the Spotify service. -/
def extractIdFromUri (uri : String) : Option String := extractIdFromUriAux uri.data

/-- The `try/catch` around the refinement call: on success the refined
list replaces `foundSongs`; on any refinement error the pre-refinement
list is kept. -/
def applyRefinementOutcome (foundSongs : List JsVal)
    (refineOutcome : Except String (List JsVal)) : List JsVal :=
  match refineOutcome with
  | .ok refinedSongs => refinedSongs
  | .error _ => foundSongs

/-- Step 4 of `createSpotifyPlaylistDirect`: the refinement stage runs
only when requested, with found songs and with at least one extracted
track id; its failure is confined by the `catch`. -/
def directRefineStage (useAudioFeatures : Bool) (foundSongs : List JsVal)
    (refineOutcome : Except String (List JsVal)) : List JsVal :=
  if useAudioFeatures ∧ foundSongs.length > 0 then
    let trackIds := (foundSongs.map (fun s => extractIdFromUri (jsStrPropD s "uri"))).filterMap id
    if trackIds.length > 0 then applyRefinementOutcome foundSongs refineOutcome
    else foundSongs
  else foundSongs

/-- Outcome of `createSpotifyPlaylistDirect` after the Spotify search
produced `foundSongs` (the subsequent provider calls `createSpotifyPlaylist`
and `addTracksToSpotifyPlaylist` are outside this claim's scope and
assumed to succeed): fewer than 5 found songs is a 404, otherwise a
success response carrying the final track URIs in order. -/
inductive DirectResp where
  | insufficientSongs (found : Nat)
  | success (trackUris : List String)
deriving Repr, DecidableEq

/-- The tail of `createSpotifyPlaylistDirect` from the found-songs
check through the refinement stage to the response. -/
def createSpotifyPlaylistDirect (useAudioFeatures : Bool) (foundSongs : List JsVal)
    (refineOutcome : Except String (List JsVal)) : DirectResp :=
  if foundSongs.length < 5 then .insufficientSongs foundSongs.length
  else
    let finalSongs := directRefineStage useAudioFeatures foundSongs refineOutcome
    .success (finalSongs.map (fun s => jsStrPropD s "uri"))

/-! ## The two cache stores (`part_004`)

`InMemoryStore` (first implementation): both maps bounded at
`maxCacheSize = 1000`; on every insert, if the size exceeds the bound
the oldest-inserted key is deleted.  The search cache keys are
normalized queries.

`PlaylistStore` (second implementation — the one exported by
`config/database.js` and imported by the services): both maps are
unbounded; every insert only sweeps time-expired entries.  Entry
payloads are irrelevant to the claims, so the value type is a
parameter; keys are type-generic like a JS `Map` itself. -/

/-- `this.maxCacheSize = 1000`. -/
def InMemoryStore.maxCacheSize : Nat := 1000

/-- The insert-then-evict-oldest block that `InMemoryStore.storePlaylist`
and `InMemoryStore.storeSearchResult` both inline:
`map.set(k, v); if (map.size > this.maxCacheSize) map.delete(map.keys().next().value)`. -/
def InMemoryStore.boundedInsert [DecidableEq α] (m : JsMap α β) (k : α) (v : β) : JsMap α β :=
  let m1 := m.set k v
  if m1.size > InMemoryStore.maxCacheSize then
    match m1.firstKey with
    | some k0 => m1.del k0
    | none => m1
  else m1

/-- `InMemoryStore.storePlaylist(id, playlistData)` — the stored value
is the playlist record with `createdAt`; only the key structure
matters to the claims. -/
def InMemoryStore.storePlaylist [DecidableEq α] (playlists : JsMap α β) (id : α) (entry : β) :
    JsMap α β :=
  InMemoryStore.boundedInsert playlists id entry

/-- `normalizeQuery(query)`: lowercase, trim, collapse whitespace runs
to single spaces. -/
def InMemoryStore.normalizeQuery (q : String) : String :=
  ⟨List.intercalate [' '] (splitWsAux (trimList (q.data.map lowerChar)) [])⟩

/-- `InMemoryStore.storeSearchResult(query, result)` — keyed by the
normalized query. -/
def InMemoryStore.storeSearchResult (cache : JsMap String β) (query : String) (entry : β) :
    JsMap String β :=
  InMemoryStore.boundedInsert cache (InMemoryStore.normalizeQuery query) entry

/-- Folding `storePlaylist` over a list of keys (the claim's
"inserting capacity+1 distinct keys" scenario). -/
def InMemoryStore.storePlaylistAll [DecidableEq α] (m : JsMap α β) (ks : List α) (v : α → β) :
    JsMap α β :=
  ks.foldl (fun m k => InMemoryStore.storePlaylist m k (v k)) m

/-- Folding `storeSearchResult` over a list of queries. -/
def InMemoryStore.storeSearchResultAll (m : JsMap String β) (ks : List String) (v : String → β) :
    JsMap String β :=
  ks.foldl (fun m k => InMemoryStore.storeSearchResult m k (v k)) m

/-- `this.EXPIRATION_TIME = 24 * 60 * 60 * 1000`. -/
def PlaylistStore.EXPIRATION_TIME : Int := 24 * 60 * 60 * 1000

/-- `this.SEARCH_EXPIRATION_TIME = 4 * 60 * 60 * 1000`. -/
def PlaylistStore.SEARCH_EXPIRATION_TIME : Int := 4 * 60 * 60 * 1000

/-- A `PlaylistStore` entry: a payload plus its `timestamp`. -/
structure TimedEntry (β : Type) where
  value : β
  timestamp : Int
deriving Repr, DecidableEq

/-- `cleanExpiredPlaylists()`. -/
def PlaylistStore.cleanExpiredPlaylists (m : JsMap α (TimedEntry β)) (now : Int) :
    JsMap α (TimedEntry β) :=
  List.filter (fun p => ¬ now - p.2.timestamp > PlaylistStore.EXPIRATION_TIME) m

/-- `PlaylistStore.storePlaylist(playlistData)`: set under the freshly
generated id (supplied here as a parameter, its uniqueness being the
environment's concern), then sweep expired entries.  No capacity
bound. -/
def PlaylistStore.storePlaylist [DecidableEq α] (m : JsMap α (TimedEntry β)) (now : Int)
    (id : α) (data : β) : JsMap α (TimedEntry β) :=
  PlaylistStore.cleanExpiredPlaylists (m.set id ⟨data, now⟩) now

/-- `cleanExpiredSearchResults()`. -/
def PlaylistStore.cleanExpiredSearchResults (m : JsMap α (TimedEntry β)) (now : Int) :
    JsMap α (TimedEntry β) :=
  List.filter (fun p => ¬ now - p.2.timestamp > PlaylistStore.SEARCH_EXPIRATION_TIME) m

/-- `PlaylistStore.storeSearchResult(query, result)` — unnormalized
key, no capacity bound. -/
def PlaylistStore.storeSearchResult [DecidableEq α] (m : JsMap α (TimedEntry β)) (now : Int)
    (query : α) (result : β) : JsMap α (TimedEntry β) :=
  PlaylistStore.cleanExpiredSearchResults (m.set query ⟨result, now⟩) now

/-- `PlaylistStore.getSearchResult(query)`: miss on absent key; lazy
expiry (delete and miss) on a stale entry; otherwise the stored
`searchEntry.result` — note that a stored "no match" (`null`) result
is returned as `null`, indistinguishable from a miss for the caller. -/
def PlaylistStore.getSearchResult [DecidableEq α] (m : JsMap α (TimedEntry β)) (now : Int)
    (query : α) : Option β × JsMap α (TimedEntry β) :=
  match m.get query with
  | none => (none, m)
  | some e =>
    if now - e.timestamp > PlaylistStore.SEARCH_EXPIRATION_TIME then (none, m.del query)
    else (some e.value, m)

/-- Folding `PlaylistStore.storePlaylist` over a list of keys. -/
def PlaylistStore.storePlaylistAll [DecidableEq α] (m : JsMap α (TimedEntry β)) (now : Int)
    (ks : List α) (v : α → β) : JsMap α (TimedEntry β) :=
  ks.foldl (fun m k => PlaylistStore.storePlaylist m now k (v k)) m

/-- Folding `PlaylistStore.storeSearchResult` over a list of keys. -/
def PlaylistStore.storeSearchResultAll [DecidableEq α] (m : JsMap α (TimedEntry β)) (now : Int)
    (ks : List α) (v : α → β) : JsMap α (TimedEntry β) :=
  ks.foldl (fun m k => PlaylistStore.storeSearchResult m now k (v k)) m

/-! ## `searchTrack` (`youtubeMusicService.js`)

The provider call `this.ytmusic.searchSongs(query, {limit: 5})` is an
oracle that can throw; a `null`/empty result list are conflated (the
code guards `!searchResults || searchResults.length === 0`).  The
search cache is the `PlaylistStore` search map (the store the service
imports).  The third component of the output records whether a
provider search request was issued by this call. -/

/-- The search cache of the store used by the service:
`query → { result, timestamp }` with a nullable result. -/
abbrev SearchCache := JsMap String (TimedEntry (Option YTInfo))

/-- The result record `searchTrack` builds from the best match:
`artist` is `bestMatch.artist?.name || bestMatch.artists?.[0]?.name || "Unknown Artist"`. -/
def mkYTInfo (bestMatch : YTResult) : YTInfo :=
  { videoId := bestMatch.videoId
  , title := bestMatch.name
  , artist :=
      if optStrTruthy bestMatch.artistName then bestMatch.artistName.getD ""
      else if optStrTruthy bestMatch.artistsHeadName then bestMatch.artistsHeadName.getD ""
      else "Unknown Artist"
  , durationSeconds := bestMatch.durationSeconds
  , thumbnails := bestMatch.thumbnails
  , playbackUrl := ⟨("https://www.youtube.com/watch?v=").data ++ bestMatch.videoId.data⟩ }

/-- `searchTrack(title, artist)` : `(result, cache-after, provider-search-issued)`.
The cached-result check is the truthy `if (cachedResult)`, so a cached
`null` ("no match") outcome falls through to a fresh provider search. -/
def searchTrack (provider : String → Except Unit (List YTResult)) (cache : SearchCache)
    (now : Int) (title artist : String) : Option YTInfo × SearchCache × Bool :=
  if ¬ strTruthy title then (none, cache, false)
  else
    let query := jsTrim ⟨(jsTrim title).data ++ ' ' :: (if strTruthy artist then (jsTrim artist).data else [])⟩
    let lookup := PlaylistStore.getSearchResult cache now query
    let cache1 := lookup.2
    match lookup.1.join with
    | some cachedResult => (some cachedResult, cache1, false)
    | none =>
      match provider query with
      | .error _ => (none, cache1, true)
      | .ok searchResults =>
        if searchResults.isEmpty then
          (none, PlaylistStore.storeSearchResult cache1 now query none, true)
        else
          match findBestMatch searchResults title artist with
          | some bestMatch =>
            let result := mkYTInfo bestMatch
            (some result, PlaylistStore.storeSearchResult cache1 now query (some result), true)
          | none => (none, PlaylistStore.storeSearchResult cache1 now query none, true)

/-! ## The pipeline orchestrator (`getPlaylist`, `part_005`)

The generation attempts are oracles (`Except`-valued outcomes of
`generateClassicalPlaylist` / `generateFallbackClassicalPlaylist`),
per-song resolution is the `searchMultipleTracks` oracle, and the
playlist cache is the `PlaylistStore` playlist map.  The best-effort
Spotify branch and the MongoDB save are `try/catch`-confined side
channels that cannot alter the response or the playlist cache, and are
not modelled. -/

/-- Which generation paths were invoked. -/
inductive GenCall where
  | primary
  | fallback
deriving Repr, DecidableEq

/-- Lines 33–40 of the orchestrator: try the primary generation; on a
throw, escalate (once) to the fallback, whose outcome — success or
throw — is final.  Also returns the invocation trace. -/
def generateWithFallback (primaryGen fallbackGen : Except String JsVal) :
    Except String JsVal × List GenCall :=
  match primaryGen with
  | .ok d => (.ok d, [.primary])
  | .error _ => (fallbackGen, [.primary, .fallback])

/-- The candidates of a validated generation result. -/
def jsValSongs (v : JsVal) : List Song :=
  match jsGetPropD v "songs" with
  | .jarr l => l.map (fun s => ⟨jsStrPropD s "title", jsStrPropD s "artist"⟩)
  | _ => []

/-- One song of the final playlist payload (step 5). -/
structure FinalSong where
  title : String
  artist : String
  durationSeconds : Option Int
  videoId : String
  playbackUrl : String
  thumbnails : List String
  originalTitle : String
  originalArtist : String
deriving Repr, DecidableEq

/-- The final playlist payload (step 5); the optional Spotify summary
is omitted (best-effort side channel). -/
structure FinalPlaylist where
  id : String
  title : String
  description : String
  totalSongs : Nat
  originalSongsCount : Nat
  songs : List FinalSong
deriving Repr, DecidableEq

/-- The orchestrator's response. -/
inductive PlaylistResp where
  | badRequest
  | notFoundYT
  | serverError
  | ok (status : Bool) (data : FinalPlaylist)
deriving Repr, DecidableEq

/-- Map one found song into the response shape. -/
def toFinalSong (r : YTSongRes) : FinalSong :=
  let yt := r.youtubeMusic.getD ⟨"", "", "", none, [], ""⟩
  { title := yt.title
  , artist := yt.artist
  , durationSeconds := yt.durationSeconds
  , videoId := yt.videoId
  , playbackUrl := yt.playbackUrl
  , thumbnails := yt.thumbnails
  , originalTitle := r.song.title
  , originalArtist := r.song.artist }

/-- `getPlaylist(req, res)` (`part_005`), from request validation
through generation, YouTube resolution, assembly, and the playlist
cache write; returns the response and the cache after the request.
`status = true` in `PlaylistResp.ok` is the full-success status,
`false` the partial status.  A double generation failure propagates to
the outer `catch` (the 500 response) before any cache write. -/
def getPlaylist (userDescription : String)
    (primaryGen fallbackGen : Except String JsVal)
    (resolve : Song → Except Unit (Option YTInfo))
    (store : JsMap String (TimedEntry FinalPlaylist)) (now : Int) (playlistId : String) :
    PlaylistResp × JsMap String (TimedEntry FinalPlaylist) :=
  if ¬ strTruthy (jsTrim userDescription) then (.badRequest, store)
  else
    match (generateWithFallback primaryGen fallbackGen).1 with
    | .error _ => (.serverError, store)
    | .ok playlistData =>
      let songs := jsValSongs playlistData
      let songsWithVideoIds := searchMultipleTracks resolve songs
      let foundYTSongs := songsWithVideoIds.filter (fun r => r.youtubeMusic.isSome)
      if foundYTSongs.length = 0 then (.notFoundYT, store)
      else
        let finalPlaylist : FinalPlaylist :=
          { id := playlistId
          , title := jsStrPropD playlistData "title"
          , description := jsStrPropD playlistData "description"
          , totalSongs := foundYTSongs.length
          , originalSongsCount := songs.length
          , songs := foundYTSongs.map toFinalSong }
        (.ok (foundYTSongs.length = songs.length) finalPlaylist,
          PlaylistStore.storePlaylist store now playlistId finalPlaylist)


/-! ## Auxiliary definition used by the cache-bound lemmas -/

/-- Folding the `InMemoryStore` insert-then-evict block over a key
list through a key-projection (identity for the playlist map, query
normalization for the search map). -/
def InMemoryStore.insertAllKeyed [DecidableEq γ] (key : α → γ) (v : α → β)
    (m : JsMap γ β) (ks : List α) : JsMap γ β :=
  ks.foldl (fun m k => InMemoryStore.boundedInsert m (key k) (v k)) m

/-- Songs count of a generation result (for reading off a playlist
payload). -/
def songsCount (v : JsVal) : Nat :=
  match jsGetPropD v "songs" with
  | .jarr l => l.length
  | _ => 0

/-- A fallback-model output whose `songs` array has 11 entries
(syntactically valid JSON). -/
def elevenSongText : String :=
  "\x7b \"title\": \"Calm Classics\", \"description\": \"Soothing pieces\", \"songs\": [" ++
  "\x7b\"title\": \"Piece 1\", \"artist\": \"Composer 1\"\x7d," ++
  "\x7b\"title\": \"Piece 2\", \"artist\": \"Composer 2\"\x7d," ++
  "\x7b\"title\": \"Piece 3\", \"artist\": \"Composer 3\"\x7d," ++
  "\x7b\"title\": \"Piece 4\", \"artist\": \"Composer 4\"\x7d," ++
  "\x7b\"title\": \"Piece 5\", \"artist\": \"Composer 5\"\x7d," ++
  "\x7b\"title\": \"Piece 6\", \"artist\": \"Composer 6\"\x7d," ++
  "\x7b\"title\": \"Piece 7\", \"artist\": \"Composer 7\"\x7d," ++
  "\x7b\"title\": \"Piece 8\", \"artist\": \"Composer 8\"\x7d," ++
  "\x7b\"title\": \"Piece 9\", \"artist\": \"Composer 9\"\x7d," ++
  "\x7b\"title\": \"Piece 10\", \"artist\": \"Composer 10\"\x7d," ++
  "\x7b\"title\": \"Piece 11\", \"artist\": \"Composer 11\"\x7d]\x7d"

/-! ## Helper lemmas -/

theorem searchMultipleTracks_eq_map_aux (resolve : Song → Except Unit (Option YTInfo)) :
    ∀ (n : Nat) (l : List Song), l.length ≤ n →
      searchMultipleTracks resolve l = l.map (resolveOneCaught resolve) := by
  intro n
  induction n with
  | zero =>
    intro l hl
    cases l with
    | nil => simp [searchMultipleTracks]
    | cons s rest => simp at hl
  | succ n ih =>
    intro l hl
    cases l with
    | nil => simp [searchMultipleTracks]
    | cons s rest =>
      rw [searchMultipleTracks, ih ((s :: rest).drop 3) (by simp at hl ⊢; omega)]
      rw [← List.map_append, List.take_append_drop]

theorem searchMultipleTracks_eq_map (resolve : Song → Except Unit (Option YTInfo))
    (l : List Song) :
    searchMultipleTracks resolve l = l.map (resolveOneCaught resolve) :=
  searchMultipleTracks_eq_map_aux resolve l.length l le_rfl

theorem searchMultipleSpotifyTracks_eq_map_aux (resolve : Song → Except Unit (Option String)) :
    ∀ (n : Nat) (l : List Song), l.length ≤ n →
      searchMultipleSpotifyTracks resolve l = l.map (resolveOneSpotifyCaught resolve) := by
  intro n
  induction n with
  | zero =>
    intro l hl
    cases l with
    | nil => simp [searchMultipleSpotifyTracks]
    | cons s rest => simp at hl
  | succ n ih =>
    intro l hl
    cases l with
    | nil => simp [searchMultipleSpotifyTracks]
    | cons s rest =>
      rw [searchMultipleSpotifyTracks, ih ((s :: rest).drop 5) (by simp at hl ⊢; omega)]
      rw [← List.map_append, List.take_append_drop]

theorem searchMultipleSpotifyTracks_eq_map (resolve : Song → Except Unit (Option String))
    (l : List Song) :
    searchMultipleSpotifyTracks resolve l = l.map (resolveOneSpotifyCaught resolve) :=
  searchMultipleSpotifyTracks_eq_map_aux resolve l.length l le_rfl

theorem jsSetDedup_aux [DecidableEq α] :
    ∀ (l acc : List α), acc.Nodup →
      (List.foldl (fun acc x => if acc.contains x then acc else acc ++ [x]) acc l).Nodup ∧
      ∃ t, List.foldl (fun acc x => if acc.contains x then acc else acc ++ [x]) acc l = acc ++ t ∧
        t.Sublist l ∧ (∀ x ∈ t, x ∉ acc) ∧ (∀ x ∈ l, x ∈ acc ∨ x ∈ t) := by
  intro l
  induction l with
  | nil =>
    intro acc h
    exact ⟨h, [], by simp, List.nil_sublist _, by simp, by simp⟩
  | cons x xs ih =>
    intro acc h
    rw [List.foldl_cons]
    by_cases hc : x ∈ acc
    · rw [show (if acc.contains x then acc else acc ++ [x]) = acc by simp [hc]]
      obtain ⟨hnd, t, heq, hsub, hnin, hcov⟩ := ih acc h
      refine ⟨hnd, t, heq, hsub.cons x, hnin, ?_⟩
      intro y hy
      rcases List.mem_cons.mp hy with hy | hy
      · exact Or.inl (hy ▸ hc)
      · exact hcov y hy
    · rw [show (if acc.contains x then acc else acc ++ [x]) = acc ++ [x] by simp [hc]]
      have h' : (acc ++ [x]).Nodup := by simp [List.nodup_append, h, hc]
      obtain ⟨hnd, t, heq, hsub, hnin, hcov⟩ := ih (acc ++ [x]) h'
      refine ⟨hnd, x :: t, ?_, hsub.cons₂ x, ?_, ?_⟩
      · rw [heq, List.append_assoc]
        rfl
      · intro y hy
        rcases List.mem_cons.mp hy with hy | hy
        · exact hy ▸ hc
        · intro hmem
          exact hnin y hy (by simp [hmem])
      · intro y hy
        rcases List.mem_cons.mp hy with hy | hy
        · exact Or.inr (by simp [hy])
        · rcases hcov y hy with hacc | ht
          · rcases List.mem_append.mp hacc with h1 | h1
            · exact Or.inl h1
            · exact Or.inr (by simp at h1; simp [h1])
          · exact Or.inr (List.mem_cons_of_mem _ ht)

theorem jsSetDedup_nodup [DecidableEq α] (l : List α) : (jsSetDedup l).Nodup :=
  (jsSetDedup_aux l [] List.nodup_nil).1

theorem jsSetDedup_sublist [DecidableEq α] (l : List α) : (jsSetDedup l).Sublist l := by
  obtain ⟨-, t, heq, hsub, -, -⟩ := jsSetDedup_aux l [] List.nodup_nil
  rw [jsSetDedup, heq]
  simpa using hsub

theorem jsSetDedup_mem_iff [DecidableEq α] (l : List α) (a : α) :
    a ∈ jsSetDedup l ↔ a ∈ l := by
  obtain ⟨-, t, heq, hsub, -, hcov⟩ := jsSetDedup_aux l [] List.nodup_nil
  rw [jsSetDedup, heq]
  constructor
  · intro h
    exact hsub.mem (by simpa using h)
  · intro h
    rcases hcov a h with h1 | h1
    · simp at h1
    · simpa using h1

/-! ## C3, C4, C10 -/

/-- C3: `resolveMany` (both `searchMultipleTracks` and
`searchMultipleSpotifyTracks`) returns exactly as many results as
candidates, positionally aligned with the input order; result `i` is
exactly the per-candidate caught resolution of candidate `i`, and a
throwing candidate is degraded to not-found (`youtubeMusic = null`
resp. `uri = null, found = false`) without affecting any other
result. -/
theorem resolveMany_positional_isolation
    (rYT : Song → Except Unit (Option YTInfo)) (rSP : Song → Except Unit (Option String))
    (songs : List Song) :
    (searchMultipleTracks rYT songs).length = songs.length ∧
    (searchMultipleSpotifyTracks rSP songs).length = songs.length ∧
    (∀ (i : Nat) (s : Song), songs[i]? = some s →
      (searchMultipleTracks rYT songs)[i]? = some (resolveOneCaught rYT s) ∧
      (searchMultipleSpotifyTracks rSP songs)[i]? = some (resolveOneSpotifyCaught rSP s)) ∧
    (∀ (s : Song) (e : Unit), rYT s = .error e → resolveOneCaught rYT s = ⟨s, none⟩) ∧
    (∀ (s : Song) (e : Unit), rSP s = .error e → resolveOneSpotifyCaught rSP s = ⟨s, none, false⟩) := by
  refine ⟨?_, ?_, ?_, ?_, ?_⟩
  · rw [searchMultipleTracks_eq_map]; simp
  · rw [searchMultipleSpotifyTracks_eq_map]; simp
  · intro i s hs
    rw [searchMultipleTracks_eq_map, searchMultipleSpotifyTracks_eq_map]
    constructor
    · simp [List.getElem?_map, hs]
    · simp [List.getElem?_map, hs]
  · intro s e he
    simp [resolveOneCaught, he]
  · intro s e he
    simp [resolveOneSpotifyCaught, he]

/-- Witness for C3 at a concrete batch: candidate 1 of 2 throws, the
other resolves; both results are present, in order, with candidate 1
degraded. -/
theorem resolveMany_positional_isolation_witness :
    (([⟨"Good", "X"⟩, ⟨"Bad", "Y"⟩] : List Song)[1]? = some ⟨"Bad", "Y"⟩) ∧
    (searchMultipleTracks
        (fun s => if s.title = "Bad" then .error () else .ok (some ⟨"v", "t", "a", none, [], "u"⟩))
        [⟨"Good", "X"⟩, ⟨"Bad", "Y"⟩])[1]? =
      some (resolveOneCaught
        (fun s => if s.title = "Bad" then .error () else .ok (some ⟨"v", "t", "a", none, [], "u"⟩))
        ⟨"Bad", "Y"⟩) := by
  refine ⟨by decide, ?_⟩
  exact (((resolveMany_positional_isolation
    (fun s => if s.title = "Bad" then .error () else .ok (some ⟨"v", "t", "a", none, [], "u"⟩))
    (fun _ => .ok none)
    [⟨"Good", "X"⟩, ⟨"Bad", "Y"⟩]).2.2.1 1 ⟨"Bad", "Y"⟩ (by decide)).1)

/-- C4: the best-match selectors are deterministic (pure functions of
the result list and the query — the embedding of the source found no
source of randomness, and the engine sort is stable), and a
single-element result list is returned unconditionally, before any
scoring. -/
theorem findBestMatch_deterministic_singleton
    (results : List YTResult) (resultsSp : List SpResult) (t a : String)
    (r : YTResult) (rs : SpResult) :
    findBestMatch results t a = findBestMatch results t a ∧
    findBestSpotifyMatch resultsSp t a = findBestSpotifyMatch resultsSp t a ∧
    findBestMatch [r] t a = some r ∧
    findBestSpotifyMatch [rs] t a = some rs :=
  ⟨rfl, rfl, rfl, rfl⟩

/-- C10: `addTracksToSpotifyPlaylist` returns `null` (no provider
request) exactly on an empty URI list; otherwise the list sent to the
provider is the first-occurrence deduplication of the input, truncated
to at most 100 entries — duplicate-free and order-preserving. -/
theorem addTracks_dedup_bounded (trackUris : List String) :
    (trackUris = [] → addTracksToSpotifyPlaylist trackUris = none) ∧
    (trackUris ≠ [] →
      addTracksToSpotifyPlaylist trackUris = some ((jsSetDedup trackUris).take 100)) ∧
    ((jsSetDedup trackUris).take 100).Nodup ∧
    ((jsSetDedup trackUris).take 100).length ≤ 100 ∧
    ((jsSetDedup trackUris).take 100).Sublist trackUris ∧
    (jsSetDedup trackUris).Nodup ∧
    (jsSetDedup trackUris).Sublist trackUris ∧
    (∀ u, u ∈ jsSetDedup trackUris ↔ u ∈ trackUris) := by
  refine ⟨?_, ?_, ?_, ?_, ?_, jsSetDedup_nodup _, jsSetDedup_sublist _, jsSetDedup_mem_iff _⟩
  · intro h
    simp [addTracksToSpotifyPlaylist, h]
  · intro h
    have hne : ¬ trackUris.length = 0 := by simpa using h
    by_cases hlen : (jsSetDedup trackUris).length > 100
    · simp [addTracksToSpotifyPlaylist, hne, hlen]
    · have h100 : (jsSetDedup trackUris).length ≤ 100 := by omega
      simp [addTracksToSpotifyPlaylist, hne, hlen, List.take_of_length_le h100]
  · exact (jsSetDedup_nodup trackUris).sublist (List.take_sublist _ _)
  · exact List.length_take_le _ _
  · exact (List.take_sublist _ _).trans (jsSetDedup_sublist _)

/-- Witness for C10 at a concrete empty and a concrete duplicated
input list. -/
theorem addTracks_dedup_bounded_witness :
    addTracksToSpotifyPlaylist [] = none ∧
    addTracksToSpotifyPlaylist ["u1", "u2", "u1", "u3", "u2"] =
      some ((jsSetDedup ["u1", "u2", "u1", "u3", "u2"]).take 100) ∧
    jsSetDedup ["u1", "u2", "u1", "u3", "u2"] = ["u1", "u2", "u3"] := by
  refine ⟨(addTracks_dedup_bounded []).1 rfl,
    (addTracks_dedup_bounded ["u1", "u2", "u1", "u3", "u2"]).2.1 (by decide), by decide⟩

/-! ## C1 — the Response Repair Parser -/

/-- C1 counterexample: the claim asserts every input yields an object
with non-empty `title`, `description` and a non-empty `songs` array.
A strict-parse success is returned verbatim: input `"null"` yields the
JSON `null` value, not such an object.  And when every strict parse
fails, the regex-extraction object may have an empty `songs` array:
input `""` yields `songs = []`.  (The `src/services/aiService.js`
near-duplicate even rethrows the parse failure, refuting the claim's
no-throw part for that implementation.) -/
theorem repairParser_shape_counterexample :
    parseJsonFromGeminiResponse "null" = JsVal.jnull ∧
    hasPlaylistShape (parseJsonFromGeminiResponse "null") = false ∧
    parseJsonFromGeminiResponse "" = (createValidJsonFromText "").toJsVal ∧
    (createValidJsonFromText "").songs = [] ∧
    hasPlaylistShape (parseJsonFromGeminiResponse "") = false ∧
    parseJsonFromGeminiResponseStrict "" = .error "Failed to parse AI response as JSON." :=
  ⟨rfl, rfl, rfl, rfl, rfl, rfl⟩

/-- C1 amended: the `part_007` repair parser is total (it never
propagates a parse exception — every stage's throw is caught, as the
embedding's plain function type records); a successful strict parse of
the fence-stripped input is returned verbatim with no structural
guarantee, and when the strict parses of the input and of its
quote-normalization both fail, the result is the regex-extraction
object: its `songs` list has at most 10 entries (but may be empty),
and its `title` / `description` fall back to fixed non-empty defaults
when no corresponding field is extractable. -/
theorem repairParser_amended (text : String) :
    (∀ v, jsonParse (stripFence text) = .ok v → parseJsonFromGeminiResponse text = v) ∧
    ((jsonParse (stripFence text)).isOk = false →
      (jsonParse (normalizeJsonQuotes (stripFence text))).isOk = false →
        parseJsonFromGeminiResponse text = (createValidJsonFromText (stripFence text)).toJsVal ∧
        (createValidJsonFromText (stripFence text)).songs.length ≤ 10 ∧
        (extractField ['t', 'i', 't', 'l', 'e'] stopField (stripFence text).data = none →
          (createValidJsonFromText (stripFence text)).title = "Classical Playlist") ∧
        (extractField ['d', 'e', 's', 'c', 'r', 'i', 'p', 't', 'i', 'o', 'n'] stopField
            (stripFence text).data = none →
          (createValidJsonFromText (stripFence text)).description =
            "A curated collection of classical music")) := by
  constructor
  · intro v hv
    rw [parseJsonFromGeminiResponse, hv]
  · intro h1 h2
    refine ⟨?_, ?_, ?_, ?_⟩
    · rw [parseJsonFromGeminiResponse]
      cases hp : jsonParse (stripFence text) with
      | ok v => rw [hp] at h1; simp [Except.isOk, Except.toBool] at h1
      | error e =>
        cases hq : jsonParse (normalizeJsonQuotes (stripFence text)) with
        | ok v => rw [hq] at h2; simp [Except.isOk, Except.toBool] at h2
        | error e2 => rfl
    · rw [createValidJsonFromText]
      exact List.length_take_le _ _
    · intro ht
      rw [createValidJsonFromText]
      simp only [ht]
    · intro hd
      rw [createValidJsonFromText]
      simp only [hd]

/-- Witness for C1 amended, at `"null"` (strict parse succeeds) and at
`""` (all strict parses fail). -/
theorem repairParser_amended_witness :
    (jsonParse (stripFence "null") = .ok JsVal.jnull ∧
      parseJsonFromGeminiResponse "null" = JsVal.jnull) ∧
    ((jsonParse (stripFence "")).isOk = false ∧
      (jsonParse (normalizeJsonQuotes (stripFence ""))).isOk = false ∧
      parseJsonFromGeminiResponse "" = (createValidJsonFromText (stripFence "")).toJsVal ∧
      (createValidJsonFromText (stripFence "")).songs.length ≤ 10) := by
  refine ⟨⟨rfl, (repairParser_amended "null").1 JsVal.jnull rfl⟩, rfl, rfl, ?_, ?_⟩
  · exact ((repairParser_amended "").2 rfl rfl).1
  · exact ((repairParser_amended "").2 rfl rfl).2.1

/-! ## C2 — the pairwise similarity and the composite score -/

/-- C2 counterexample: the claim says the similarity is `1.0` whenever
the two strings are equal after lowercasing and trimming.  The code
first short-circuits falsy (empty) inputs to `0`: for `""` and `" "`
both normalize to `""`, yet the similarity is `0`, not the `1`
demanded by the spec formula (`specSimilarity`). -/
theorem similarity_empty_counterexample :
    jsTrim (jsLower "") = jsTrim (jsLower " ") ∧
    similarity "" " " = 0 ∧
    specSimilarity "" " " = 1 ∧
    similarity "" " " ≠ specSimilarity "" " " := by
  refine ⟨rfl, rfl, rfl, ?_⟩
  rw [show similarity "" " " = 0 from rfl, show specSimilarity "" " " = 1 from rfl]
  norm_num

/-- C2 amended: for non-empty (truthy) inputs the pairwise similarity
is exactly the spec formula (normalized equality → 1, else shared
words over max word count), while an empty input on either side scores
0; the composite score equals `0.7 * titleSimilarity +
0.3 * artistSimilarity`, where the artist similarity term is 0 when
either side's artist is absent (and the YouTube scorer prefers
`artist?.name` over `artists?.[0]?.name`). -/
theorem similarity_composite_amended (s1 s2 t a : String) (r : YTResult) (rs : SpResult) :
    (s1 ≠ "" → s2 ≠ "" → similarity s1 s2 = specSimilarity s1 s2) ∧
    (s1 = "" ∨ s2 = "" → similarity s1 s2 = 0) ∧
    ytCompositeScore t a r =
      (7/10) * similarity r.name t +
        (3/10) * (if strTruthy a ∧ optStrTruthy r.artistName then
            similarity (r.artistName.getD "") a
          else if strTruthy a ∧ optStrTruthy r.artistsHeadName then
            similarity (r.artistsHeadName.getD "") a
          else 0) ∧
    ((¬ strTruthy a ∨ (¬ optStrTruthy r.artistName ∧ ¬ optStrTruthy r.artistsHeadName)) →
      ytCompositeScore t a r = (7/10) * similarity r.name t) ∧
    spCompositeScore t a rs =
      (7/10) * similarity rs.name t +
        (3/10) * (if strTruthy a ∧ optStrTruthy rs.artistsHeadName then
            similarity (rs.artistsHeadName.getD "") a
          else 0) ∧
    ((¬ strTruthy a ∨ ¬ optStrTruthy rs.artistsHeadName) →
      spCompositeScore t a rs = (7/10) * similarity rs.name t) := by
  refine ⟨?_, ?_, ?_, ?_, ?_, ?_⟩
  · intro h1 h2
    rw [similarity, if_neg (by simp [h1, h2]), specSimilarity]
  · intro h
    rw [similarity, if_pos h]
  · rw [ytCompositeScore]
    split_ifs <;> ring
  · intro h
    rw [ytCompositeScore]
    have h1 : ¬ (strTruthy a ∧ optStrTruthy r.artistName) := by
      rcases h with h | ⟨h, _⟩ <;> simp [h]
    have h2 : ¬ (strTruthy a ∧ optStrTruthy r.artistsHeadName) := by
      rcases h with h | ⟨_, h⟩ <;> simp [h]
    rw [if_neg h1, if_neg h2]
    ring
  · rw [spCompositeScore]
    split_ifs <;> ring
  · intro h
    rw [spCompositeScore]
    have h1 : ¬ (strTruthy a ∧ optStrTruthy rs.artistsHeadName) := by
      rcases h with h | h <;> simp [h]
    rw [if_neg h1]
    ring

/-- Witness for C2 amended at concrete non-empty strings and a
concrete artist-absent result. -/
theorem similarity_composite_amended_witness :
    similarity "Clair de Lune" "  clair de lune " =
      specSimilarity "Clair de Lune" "  clair de lune " ∧
    similarity "" "Moonlight" = 0 ∧
    ytCompositeScore "Nocturne" "" ⟨"v", "Nocturne", none, none, none, []⟩ =
      (7/10) * similarity "Nocturne" "Nocturne" := by
  refine ⟨?_, ?_, ?_⟩
  · exact (similarity_composite_amended "Clair de Lune" "  clair de lune " "" "" ⟨"", "", none, none, none, []⟩ ⟨"", "", none, none⟩).1 (by decide) (by decide)
  · exact (similarity_composite_amended "" "Moonlight" "" "" ⟨"", "", none, none, none, []⟩ ⟨"", "", none, none⟩).2.1 (Or.inl rfl)
  · exact (similarity_composite_amended "" "" "Nocturne" "" ⟨"v", "Nocturne", none, none, none, []⟩ ⟨"", "", none, none⟩).2.2.2.1 (Or.inl (by decide))

/-! ## C5 — truncation to 10 songs -/

theorem find?_map_update (fields : List (String × JsVal)) (k : String) (nv : JsVal)
    (h : fields.any (fun p => p.1 = k) = true) :
    (fields.map (fun p => if p.1 = k then (k, nv) else p)).find? (fun p => p.1 = k) =
      some (k, nv) := by
  induction fields with
  | nil => simp at h
  | cons p rest ih =>
    by_cases hp : p.1 = k
    · simp [List.find?, hp]
    · simp only [List.map_cons, if_neg hp]
      rw [List.find?_cons_of_neg _ (by simp [hp])]
      apply ih
      simpa [List.any_cons, hp] using h

theorem jsGetProp_jsSetProp_obj (fields : List (String × JsVal)) (k : String) (nv : JsVal)
    (h : fields.any (fun p => p.1 = k) = true) :
    jsGetProp (jsSetProp (.jobj fields) k nv) k = .ok nv := by
  rw [jsSetProp]
  simp only [if_pos h]
  rw [jsGetProp]
  rw [find?_map_update fields k nv h]
  rfl

/-- C5 amended (the provable core): the validation-and-truncation
block — used by `generateClassicalPlaylist` in both implementations
and by the `part_007` `generateFallbackClassicalPlaylist` — truncates
a successfully validated result with more than 10 songs to exactly the
first 10 in original order. -/
theorem validate_truncates_to_ten (raw : JsVal) (songs : List JsVal) (out : JsVal)
    (hsongs : jsGetProp raw "songs" = .ok (.jarr songs))
    (hlen : songs.length > 10)
    (hok : validateGeneratedPlaylist raw = .ok out) :
    out = jsSetProp raw "songs" (.jarr (songs.take 10)) ∧
    jsGetProp out "songs" = .ok (.jarr (songs.take 10)) ∧
    (songs.take 10).length = 10 := by
  cases raw with
  | jnull => simp [jsGetProp] at hsongs
  | jbool b => simp [jsGetProp] at hsongs
  | jnum q => simp [jsGetProp] at hsongs
  | jstr s => simp [jsGetProp] at hsongs
  | jarr l => simp [jsGetProp] at hsongs
  | jobj fields =>
    have hfind : ∃ p, fields.find? (fun p => p.1 = "songs") = some p ∧ p.2 = .jarr songs := by
      cases hf : fields.find? (fun p => p.1 = "songs") with
      | none => simp [jsGetProp, hf] at hsongs
      | some p =>
        refine ⟨p, rfl, ?_⟩
        simpa [jsGetProp, hf] using hsongs
    obtain ⟨p, hf, hp2⟩ := hfind
    have hany : fields.any (fun p => p.1 = "songs") = true := by
      have hmem := List.mem_of_find?_eq_some hf
      have hpk := List.find?_some hf
      simp only [decide_eq_true_eq] at hpk
      exact List.any_eq_true.mpr ⟨p, hmem, by simp [hpk]⟩
    have hf' : fields.find? (fun p => p.1 = "songs") = some (p.1, JsVal.jarr songs) := by
      rw [hf]
      cases p
      simp only at hp2
      rw [hp2]
    simp only [validateGeneratedPlaylist, jsGetProp, Bind.bind, Except.bind, hf',
      Option.map_some', Option.getD_some] at hok
    rw [if_pos hlen] at hok
    split at hok
    · cases hok
    · split at hok
      · cases hok
      · split at hok
        · cases hok
        · split at hok
          · cases hok
          · cases hok
            refine ⟨rfl, ?_, by simp [List.length_take]; omega⟩
            exact jsGetProp_jsSetProp_obj fields "songs" (.jarr (songs.take 10)) hany

set_option maxRecDepth 8000 in
/-- Witness for C5 amended at a concrete 11-song validated payload. -/
theorem validate_truncates_to_ten_witness :
    jsGetProp
        (.jobj [("title", .jstr "T"), ("description", .jstr "D"),
          ("songs", .jarr (List.replicate 11 (JsVal.jobj [("title", .jstr "S"), ("artist", .jstr "A")])))])
        "songs" =
      .ok (.jarr (List.replicate 11 (JsVal.jobj [("title", .jstr "S"), ("artist", .jstr "A")]))) ∧
    (List.replicate 11 (JsVal.jobj [("title", .jstr "S"), ("artist", .jstr "A")])).length > 10 ∧
    ((List.replicate 11 (JsVal.jobj [("title", .jstr "S"), ("artist", .jstr "A")])).take 10).length = 10 := by
  refine ⟨rfl, by simp, ?_⟩
  exact (validate_truncates_to_ten
    (.jobj [("title", .jstr "T"), ("description", .jstr "D"),
      ("songs", .jarr (List.replicate 11 (JsVal.jobj [("title", .jstr "S"), ("artist", .jstr "A")])))])
    (List.replicate 11 (JsVal.jobj [("title", .jstr "S"), ("artist", .jstr "A")]))
    (jsSetProp
      (.jobj [("title", .jstr "T"), ("description", .jstr "D"),
        ("songs", .jarr (List.replicate 11 (JsVal.jobj [("title", .jstr "S"), ("artist", .jstr "A")])))])
      "songs"
      (.jarr ((List.replicate 11 (JsVal.jobj [("title", .jstr "S"), ("artist", .jstr "A")])).take 10)))
    rfl (by simp) rfl).2.2

set_option maxRecDepth 20000 in
/-- C5 counterexample: the `src/services/aiService.js`
`generateFallbackClassicalPlaylist` has no truncation — on a parsed
model output with 11 songs it returns all 11, not the first 10. -/
theorem fallbackAiServiceJs_no_truncation_counterexample :
    Except.map songsCount (generateFallbackClassicalPlaylistAiServiceJs (.ok elevenSongText)) =
      .ok 11 ∧
    ¬ Except.map songsCount (generateFallbackClassicalPlaylistAiServiceJs (.ok elevenSongText)) =
      .ok 10 := by
  constructor
  · rfl
  · intro h
    rw [show Except.map songsCount (generateFallbackClassicalPlaylistAiServiceJs (.ok elevenSongText)) = .ok 11 from rfl] at h
    simp at h

/-! ## C6 — single fallback escalation, no cache entry on double failure -/

/-- C6: when the primary generation throws, the orchestrator escalates
to the fallback exactly once (the trace is `[primary, fallback]`, and
`[primary]` alone when the primary succeeds); and when the fallback
throws too, the request fails with the generation error response and
the playlist cache is returned unchanged — no entry was created. -/
theorem generation_fallback_once_no_cache
    (primaryGen fallbackGen : Except String JsVal)
    (ud : String) (resolve : Song → Except Unit (Option YTInfo))
    (store : JsMap String (TimedEntry FinalPlaylist)) (now : Int) (pid : String) :
    (∀ e, primaryGen = .error e →
      (generateWithFallback primaryGen fallbackGen).2 = [.primary, .fallback] ∧
      (generateWithFallback primaryGen fallbackGen).1 = fallbackGen) ∧
    (∀ d, primaryGen = .ok d →
      (generateWithFallback primaryGen fallbackGen).2 = [.primary] ∧
      (generateWithFallback primaryGen fallbackGen).1 = .ok d) ∧
    (strTruthy (jsTrim ud) = true →
      ∀ e1 e2, primaryGen = .error e1 → fallbackGen = .error e2 →
        getPlaylist ud primaryGen fallbackGen resolve store now pid = (.serverError, store)) := by
  refine ⟨?_, ?_, ?_⟩
  · intro e he
    rw [he]
    exact ⟨rfl, rfl⟩
  · intro d hd
    rw [hd]
    exact ⟨rfl, rfl⟩
  · intro hud e1 e2 he1 he2
    rw [getPlaylist, if_neg (by simp [hud])]
    rw [he1, he2]
    rfl

/-- Witness for C6 at concrete failing generations and a concrete
store. -/
theorem generation_fallback_once_no_cache_witness :
    ((generateWithFallback (.error "boom") (.error "boom2")).2 = [.primary, .fallback]) ∧
    ((generateWithFallback (.ok .jnull) (.error "boom2")).2 = [.primary]) ∧
    getPlaylist "calm focus" (.error "boom") (.error "boom2") (fun _ => .ok none)
        [("old", ⟨⟨"old", "t", "d", 1, 1, []⟩, 0⟩)] 5 "new-id" =
      (.serverError, [("old", ⟨⟨"old", "t", "d", 1, 1, []⟩, 0⟩)]) := by
  refine ⟨?_, ?_, ?_⟩
  · exact ((generation_fallback_once_no_cache (.error "boom") (.error "boom2") "calm focus"
      (fun _ => .ok none) [] 0 "x").1 "boom" rfl).1
  · exact ((generation_fallback_once_no_cache (.ok .jnull) (.error "boom2") "calm focus"
      (fun _ => .ok none) [] 0 "x").2.1 .jnull rfl).1
  · exact (generation_fallback_once_no_cache (.error "boom") (.error "boom2") "calm focus"
      (fun _ => .ok none) [("old", ⟨⟨"old", "t", "d", 1, 1, []⟩, 0⟩)] 5 "new-id").2.2
      (by decide) "boom" "boom2" rfl rfl

/-! ## C7 — refinement closed-world failure is stage-local -/

/-- C7: a refinement response containing a URI outside the eligible
input set makes `refinePlaylistWithAudioFeatures` throw its
stage-local validation error, and the caller
(`createSpotifyPlaylistDirect`) catches it, keeps the pre-refinement
track order, and still returns the success response. -/
theorem refinement_unknown_uri_stage_local
    (songsWithFeatures : List RefInputSong) (text : String)
    (refinedSongs foundSongs : List JsVal) (m : String)
    (hvalid : (songsWithFeatures.filter
        (fun s => optStrTruthy s.uri && optStrTruthy s.id)).length ≠ 0)
    (hparse : parseJsonFromGeminiResponse text = .jarr refinedSongs)
    (hformat : checkRefinedFormat refinedSongs = .ok false)
    (hbad : refineCheckUris
        ((songsWithFeatures.filter (fun s => optStrTruthy s.uri && optStrTruthy s.id)).map
          (fun s => s.uri.getD ""))
        refinedSongs = .error m) :
    refinePlaylistWithAudioFeatures songsWithFeatures (.ok text) = .error m ∧
    applyRefinementOutcome foundSongs (.error m) = foundSongs ∧
    directRefineStage true foundSongs
      (refinePlaylistWithAudioFeatures songsWithFeatures (.ok text)) = foundSongs ∧
    (¬ foundSongs.length < 5 →
      createSpotifyPlaylistDirect true foundSongs
          (refinePlaylistWithAudioFeatures songsWithFeatures (.ok text)) =
        .success (foundSongs.map (fun s => jsStrPropD s "uri"))) := by
  have h1 : refinePlaylistWithAudioFeatures songsWithFeatures (.ok text) = .error m := by
    rw [refinePlaylistWithAudioFeatures, if_neg hvalid, hparse, refineValidateParsed]
    simp only [Bind.bind, Except.bind, hformat, hbad]
    rfl
  have h2 : directRefineStage true foundSongs
      (refinePlaylistWithAudioFeatures songsWithFeatures (.ok text)) = foundSongs := by
    simp [directRefineStage, h1, applyRefinementOutcome]
  refine ⟨h1, rfl, h2, ?_⟩
  intro h5
  rw [createSpotifyPlaylistDirect, if_neg h5, h2]

/-- Witness for C7 at a concrete eligible set, a concrete refinement
response containing an unknown URI, and five concrete found songs. -/
theorem refinement_unknown_uri_stage_local_witness :
    refinePlaylistWithAudioFeatures
        [⟨"T", "A", some "spotify:track:abc", some "abc"⟩]
        (.ok "[\x7b\"title\": \"T\", \"artist\": \"A\", \"uri\": \"spotify:track:zzz\"\x7d]") =
      .error "AI refinement included a song with a URI not present in the original list." ∧
    createSpotifyPlaylistDirect true
        [.jobj [("uri", .jstr "u1")], .jobj [("uri", .jstr "u2")], .jobj [("uri", .jstr "u3")],
          .jobj [("uri", .jstr "u4")], .jobj [("uri", .jstr "u5")]]
        (refinePlaylistWithAudioFeatures
          [⟨"T", "A", some "spotify:track:abc", some "abc"⟩]
          (.ok "[\x7b\"title\": \"T\", \"artist\": \"A\", \"uri\": \"spotify:track:zzz\"\x7d]")) =
      .success ["u1", "u2", "u3", "u4", "u5"] := by
  have h := refinement_unknown_uri_stage_local
    [⟨"T", "A", some "spotify:track:abc", some "abc"⟩]
    "[\x7b\"title\": \"T\", \"artist\": \"A\", \"uri\": \"spotify:track:zzz\"\x7d]"
    [.jobj [("title", .jstr "T"), ("artist", .jstr "A"), ("uri", .jstr "spotify:track:zzz")]]
    [.jobj [("uri", .jstr "u1")], .jobj [("uri", .jstr "u2")], .jobj [("uri", .jstr "u3")],
      .jobj [("uri", .jstr "u4")], .jobj [("uri", .jstr "u5")]]
    "AI refinement included a song with a URI not present in the original list."
    (by decide) rfl rfl rfl
  exact ⟨h.1, by rw [h.2.2.2 (by decide)]; rfl⟩


/-! ## C8 — cache capacity and insertion-order eviction -/

theorem JsMap.set_fresh [DecidableEq α] (m : JsMap α β) (k : α) (v : β)
    (h : k ∉ m.map Prod.fst) : m.set k v = m ++ [(k, v)] := by
  rw [JsMap.set, if_neg]
  simp only [List.any_eq_true, decide_eq_true_eq, not_exists]
  intro p hp
  exact h (List.mem_map.mpr ⟨p, hp.1, hp.2⟩)

theorem JsMap.get_map_keyed [DecidableEq γ] (key : α → γ) (v : α → β) (l : List α) (q : γ) :
    JsMap.get (l.map (fun k => (key k, v k))) q = (l.find? (fun k => key k = q)).map v := by
  induction l with
  | nil => rfl
  | cons k kt ih =>
    by_cases h : key k = q
    · simp [JsMap.get, List.find?, h]
    · simp only [JsMap.get, List.map_cons, List.find?] at ih ⊢
      rw [decide_eq_false h]
      exact ih

theorem insertAllKeyed_fresh [DecidableEq γ] (key : α → γ) (v : α → β) :
    ∀ (ks : List α) (m : JsMap γ β),
      (m.map Prod.fst ++ ks.map key).Nodup → m.length + ks.length ≤ 1000 →
      InMemoryStore.insertAllKeyed key v m ks = m ++ ks.map (fun k => (key k, v k)) := by
  intro ks
  induction ks with
  | nil =>
    intro m _ _
    simp [InMemoryStore.insertAllKeyed]
  | cons k kt ih =>
    intro m hnd hlen
    have hfresh : key k ∉ m.map Prod.fst := by
      have hdisj := List.disjoint_of_nodup_append hnd
      intro hmem
      exact hdisj hmem (by simp)
    have hset : m.set (key k) (v k) = m ++ [(key k, v k)] := JsMap.set_fresh m _ _ hfresh
    have hstep : InMemoryStore.boundedInsert m (key k) (v k) = m ++ [(key k, v k)] := by
      rw [InMemoryStore.boundedInsert]
      simp only [hset]
      rw [if_neg]
      simp only [JsMap.size, List.length_append, List.length_cons, List.length_nil,
        InMemoryStore.maxCacheSize]
      simp only [List.length_cons] at hlen
      omega
    have hnd' : ((m ++ [(key k, v k)]).map Prod.fst ++ kt.map key).Nodup := by
      simp only [List.map_append, List.map_cons, List.map_nil] at hnd ⊢
      simpa [List.append_assoc] using hnd
    have hlen' : (m ++ [(key k, v k)]).length + kt.length ≤ 1000 := by
      simp only [List.length_append, List.length_cons, List.length_nil]
      simp only [List.length_cons] at hlen
      omega
    have hone : InMemoryStore.insertAllKeyed key v m (k :: kt) =
        InMemoryStore.insertAllKeyed key v (m ++ [(key k, v k)]) kt := by
      rw [InMemoryStore.insertAllKeyed, List.foldl_cons, hstep]
      rfl
    rw [hone, ih _ hnd' hlen']
    simp [List.append_assoc]

theorem insertAllKeyed_evicts [DecidableEq γ] (key : α → γ) (v : α → β) (ks : List α)
    (hnd : (ks.map key).Nodup) (hlen : ks.length = 1001) :
    InMemoryStore.insertAllKeyed key v [] ks = ks.tail.map (fun k => (key k, v k)) := by
  cases ks with
  | nil => simp at hlen
  | cons k0 kt =>
    have hndc : (key k0 :: kt.map key).Nodup := by simpa using hnd
    obtain ⟨hk0nin, hktnd⟩ := List.nodup_cons.mp hndc
    have hktlen : kt.length = 1000 := by simpa using hlen
    obtain ⟨klast, hklast⟩ := List.length_eq_one.mp
      (show (kt.drop 999).length = 1 by simp [hktlen])
    have hsplit : k0 :: kt = (k0 :: kt.take 999) ++ kt.drop 999 := by
      simp [List.take_append_drop]
    have hfoldsplit : InMemoryStore.insertAllKeyed key v [] (k0 :: kt) =
        InMemoryStore.insertAllKeyed key v
          (InMemoryStore.insertAllKeyed key v [] (k0 :: kt.take 999)) (kt.drop 999) := by
      rw [show InMemoryStore.insertAllKeyed key v ([] : JsMap γ β) (k0 :: kt) =
          InMemoryStore.insertAllKeyed key v [] ((k0 :: kt.take 999) ++ kt.drop 999) by
        rw [← hsplit]]
      rw [InMemoryStore.insertAllKeyed, List.foldl_append]
      rfl
    have hsubtake : ((kt.take 999).map key).Sublist (kt.map key) := by
      rw [List.map_take]
      exact List.take_sublist _ _
    have hfill : InMemoryStore.insertAllKeyed key v [] (k0 :: kt.take 999) =
        (k0 :: kt.take 999).map (fun k => (key k, v k)) := by
      have := insertAllKeyed_fresh key v (k0 :: kt.take 999) []
      simpa using this
        (by
          simp only [List.map_nil, List.nil_append, List.map_cons]
          exact List.nodup_cons.mpr
            ⟨fun hm => hk0nin (hsubtake.mem hm), hktnd.sublist hsubtake⟩)
        (by simp [hktlen])
    have hklast_mem : klast ∈ kt := by
      have : klast ∈ kt.drop 999 := by simp [hklast]
      exact List.mem_of_mem_drop this
    have hkeymem : key klast ∈ kt.map key := List.mem_map.mpr ⟨klast, hklast_mem, rfl⟩
    have hkeyklast_ne_k0 : key klast ≠ key k0 := by
      intro h
      exact hk0nin (h ▸ hkeymem)
    have hkeyklast_nin_take : key klast ∉ (kt.take 999).map key := by
      have hnd2 : ((kt.map key).take 999 ++ (kt.map key).drop 999).Nodup := by
        rw [List.take_append_drop]
        exact hktnd
      have hdisj := List.disjoint_of_nodup_append hnd2
      intro hm
      refine hdisj (by rw [← List.map_take]; exact hm) ?_
      rw [← List.map_drop, hklast]
      simp
    -- the 1001st insert: append then evict the oldest key
    have hm1001 : JsMap.set ((k0 :: kt.take 999).map (fun k => (key k, v k))) (key klast) (v klast) =
        (k0 :: kt.take 999).map (fun k => (key k, v k)) ++ [(key klast, v klast)] := by
      apply JsMap.set_fresh
      simp only [List.map_map]
      intro hm
      rcases List.mem_map.mp hm with ⟨x, hx, hxe⟩
      rcases List.mem_cons.mp hx with hx0 | hxt
      · exact hkeyklast_ne_k0 (by rw [hx0] at hxe; simpa using hxe.symm)
      · exact hkeyklast_nin_take (List.mem_map.mpr ⟨x, hxt, by simpa using hxe⟩)
    have hdel : JsMap.del ((k0 :: kt.take 999).map (fun k => (key k, v k)) ++
        [(key klast, v klast)]) (key k0) = kt.map (fun k => (key k, v k)) := by
      rw [JsMap.del]
      rw [show (k0 :: kt.take 999).map (fun k => (key k, v k)) ++ [(key klast, v klast)] =
          (key k0, v k0) :: ((kt.take 999).map (fun k => (key k, v k)) ++
            [(key klast, v klast)]) by simp]
      rw [List.filter_cons]
      rw [if_neg (by simp)]
      rw [List.filter_eq_self.mpr]
      · rw [show ((kt.take 999).map (fun k => (key k, v k)) ++ [(key klast, v klast)]) =
            ((kt.take 999) ++ [klast]).map (fun k => (key k, v k)) by simp]
        rw [show kt.take 999 ++ [klast] = kt by rw [← hklast]; exact List.take_append_drop 999 kt]
      · intro p hp
        simp only [decide_eq_true_eq]
        rcases List.mem_append.mp hp with hp1 | hp1
        · rcases List.mem_map.mp hp1 with ⟨x, hx, hxe⟩
          intro hcon
          apply hk0nin
          rw [← hxe] at hcon
          simp only at hcon
          exact hcon ▸ List.mem_map.mpr ⟨x, List.mem_of_mem_take hx, rfl⟩
        · simp only [List.mem_singleton] at hp1
          rw [hp1]
          exact hkeyklast_ne_k0
    have hlast : InMemoryStore.boundedInsert
        ((k0 :: kt.take 999).map (fun k => (key k, v k))) (key klast) (v klast) =
        kt.map (fun k => (key k, v k)) := by
      rw [InMemoryStore.boundedInsert]
      simp only [hm1001]
      rw [if_pos]
      · rw [show JsMap.firstKey ((k0 :: kt.take 999).map (fun k => (key k, v k)) ++
            [(key klast, v klast)]) = some (key k0) from rfl]
        exact hdel
      · simp [JsMap.size, InMemoryStore.maxCacheSize, hktlen]
    rw [hfoldsplit, hfill, hklast]
    rw [show InMemoryStore.insertAllKeyed key v
        ((k0 :: kt.take 999).map (fun k => (key k, v k))) [klast] =
        InMemoryStore.boundedInsert ((k0 :: kt.take 999).map (fun k => (key k, v k)))
          (key klast) (v klast) by rw [InMemoryStore.insertAllKeyed]; rfl]
    rw [hlast]
    rfl

theorem PlaylistStore.storePlaylistAll_eq [DecidableEq α] (v : α → β) (now : Int) :
    ∀ (ks : List α) (m : JsMap α (TimedEntry β)),
      (m.map Prod.fst ++ ks).Nodup → (∀ p ∈ m, p.2.timestamp = now) →
      PlaylistStore.storePlaylistAll m now ks v =
        m ++ ks.map (fun k => (k, (⟨v k, now⟩ : TimedEntry β))) := by
  intro ks
  induction ks with
  | nil =>
    intro m _ _
    simp [PlaylistStore.storePlaylistAll]
  | cons k kt ih =>
    intro m hnd hts
    have hfresh : k ∉ m.map Prod.fst := by
      have hdisj := List.disjoint_of_nodup_append hnd
      intro hmem
      exact hdisj hmem (by simp)
    have hset : JsMap.set m k ⟨v k, now⟩ = m ++ [(k, ⟨v k, now⟩)] :=
      JsMap.set_fresh m _ _ hfresh
    have hts' : ∀ p ∈ m ++ [(k, (⟨v k, now⟩ : TimedEntry β))], p.2.timestamp = now := by
      intro p hp
      rcases List.mem_append.mp hp with hp | hp
      · exact hts p hp
      · simp at hp
        rw [hp]
    have hstep : PlaylistStore.storePlaylist m now k (v k) = m ++ [(k, ⟨v k, now⟩)] := by
      rw [PlaylistStore.storePlaylist, hset, PlaylistStore.cleanExpiredPlaylists]
      rw [List.filter_eq_self.mpr]
      intro p hp
      rw [hts' p hp]
      simp [PlaylistStore.EXPIRATION_TIME]
    have hone : PlaylistStore.storePlaylistAll m now (k :: kt) v =
        PlaylistStore.storePlaylistAll (m ++ [(k, ⟨v k, now⟩)]) now kt v := by
      rw [PlaylistStore.storePlaylistAll, List.foldl_cons, hstep]
      rfl
    have hnd' : ((m ++ [(k, (⟨v k, now⟩ : TimedEntry β))]).map Prod.fst ++ kt).Nodup := by
      simp only [List.map_append, List.map_cons, List.map_nil] at hnd ⊢
      simpa [List.append_assoc] using hnd
    rw [hone, ih _ hnd' hts']
    simp [List.append_assoc]

theorem PlaylistStore.storeSearchResultAll_eq [DecidableEq α] (v : α → β) (now : Int) :
    ∀ (ks : List α) (m : JsMap α (TimedEntry β)),
      (m.map Prod.fst ++ ks).Nodup → (∀ p ∈ m, p.2.timestamp = now) →
      PlaylistStore.storeSearchResultAll m now ks v =
        m ++ ks.map (fun k => (k, (⟨v k, now⟩ : TimedEntry β))) := by
  intro ks
  induction ks with
  | nil =>
    intro m _ _
    simp [PlaylistStore.storeSearchResultAll]
  | cons k kt ih =>
    intro m hnd hts
    have hfresh : k ∉ m.map Prod.fst := by
      have hdisj := List.disjoint_of_nodup_append hnd
      intro hmem
      exact hdisj hmem (by simp)
    have hset : JsMap.set m k ⟨v k, now⟩ = m ++ [(k, ⟨v k, now⟩)] :=
      JsMap.set_fresh m _ _ hfresh
    have hts' : ∀ p ∈ m ++ [(k, (⟨v k, now⟩ : TimedEntry β))], p.2.timestamp = now := by
      intro p hp
      rcases List.mem_append.mp hp with hp | hp
      · exact hts p hp
      · simp at hp
        rw [hp]
    have hstep : PlaylistStore.storeSearchResult m now k (v k) = m ++ [(k, ⟨v k, now⟩)] := by
      rw [PlaylistStore.storeSearchResult, hset, PlaylistStore.cleanExpiredSearchResults]
      rw [List.filter_eq_self.mpr]
      intro p hp
      rw [hts' p hp]
      simp [PlaylistStore.SEARCH_EXPIRATION_TIME]
    have hone : PlaylistStore.storeSearchResultAll m now (k :: kt) v =
        PlaylistStore.storeSearchResultAll (m ++ [(k, ⟨v k, now⟩)]) now kt v := by
      rw [PlaylistStore.storeSearchResultAll, List.foldl_cons, hstep]
      rfl
    have hnd' : ((m ++ [(k, (⟨v k, now⟩ : TimedEntry β))]).map Prod.fst ++ kt).Nodup := by
      simp only [List.map_append, List.map_cons, List.map_nil] at hnd ⊢
      simpa [List.append_assoc] using hnd
    rw [hone, ih _ hnd' hts']
    simp [List.append_assoc]

theorem insertAllKeyed_claim [DecidableEq γ] (key : α → γ) (v : α → β) (ks : List α)
    (hnd : (ks.map key).Nodup) (hlen : ks.length = 1001) :
    (InMemoryStore.insertAllKeyed key v [] ks).size = 1000 ∧
    (∀ k0, ks.head? = some k0 →
      JsMap.get (InMemoryStore.insertAllKeyed key v [] ks) (key k0) = none) ∧
    (∀ k ∈ ks.tail,
      (JsMap.get (InMemoryStore.insertAllKeyed key v [] ks) (key k)).isSome = true) := by
  rw [insertAllKeyed_evicts key v ks hnd hlen]
  refine ⟨?_, ?_, ?_⟩
  · simp [JsMap.size, List.length_tail, hlen]
  · intro k0 hk0
    cases ks with
    | nil => simp at hk0
    | cons kh kt =>
      simp only [List.head?_cons, Option.some.injEq] at hk0
      rw [List.tail_cons, JsMap.get_map_keyed, List.find?_eq_none.mpr]
      · rfl
      · intro x hx
        simp only [decide_eq_true_eq]
        intro hcon
        have hndc : (key kh :: kt.map key).Nodup := by simpa using hnd
        rw [← hk0] at hcon
        exact (List.nodup_cons.mp hndc).1 (hcon ▸ List.mem_map.mpr ⟨x, hx, rfl⟩)
  · intro k hk
    rw [JsMap.get_map_keyed]
    have hex : (List.find? (fun x => key x = key k) ks.tail).isSome = true :=
      List.find?_isSome.mpr ⟨k, hk, by simp⟩
    cases hf : List.find? (fun x => key x = key k) ks.tail with
    | none => rw [hf] at hex; simp at hex
    | some x => rfl

theorem splitWsAux_no_ws :
    ∀ (l : List Char), (∀ c ∈ l, isWsChar c = false) →
      ∀ acc, splitWsAux l acc = [acc.reverse ++ l] := by
  intro l
  induction l with
  | nil =>
    intro _ acc
    simp [splitWsAux]
  | cons c rest ih =>
    intro h acc
    rw [splitWsAux, if_neg (by simp [h c (by simp)])]
    rw [ih (fun d hd => h d (by simp [hd])) (c :: acc)]
    simp

theorem dropWhile_no_ws (l : List Char) (h : ∀ c ∈ l, isWsChar c = false) :
    l.dropWhile isWsChar = l := by
  cases l with
  | nil => rfl
  | cons c rest => simp [List.dropWhile_cons, h c (by simp)]

theorem trimList_no_ws (l : List Char) (h : ∀ c ∈ l, isWsChar c = false) :
    trimList l = l := by
  rw [trimList, dropWhile_no_ws l h,
    dropWhile_no_ws l.reverse (fun c hc => h c (List.mem_reverse.mp hc)), List.reverse_reverse]

theorem normalizeQuery_fixed (s : String)
    (h : ∀ c ∈ s.data, isWsChar c = false ∧ lowerChar c = c) :
    InMemoryStore.normalizeQuery s = s := by
  rw [InMemoryStore.normalizeQuery]
  have hmap : s.data.map lowerChar = s.data := by
    rw [List.map_congr_left (fun c hc => (h c hc).2)]
    exact List.map_id _
  rw [hmap, trimList_no_ws _ (fun c hc => (h c hc).1),
    splitWsAux_no_ws _ (fun c hc => (h c hc).1) []]
  simp [List.intercalate, List.intersperse]

/-- C8 counterexample: the `PlaylistStore` implementation (the one
`config/database.js` exports to the services) has no capacity bound at
all — inserting 1001 distinct keys into either of its two empty maps
leaves 1001 entries, not 1000. -/
theorem playlistStore_unbounded_counterexample :
    ¬ ((PlaylistStore.storePlaylistAll ([] : JsMap Nat (TimedEntry Unit)) 0
        (List.range 1001) (fun _ => ())).size = 1000) ∧
    ¬ ((PlaylistStore.storeSearchResultAll ([] : JsMap Nat (TimedEntry Unit)) 0
        (List.range 1001) (fun _ => ())).size = 1000) := by
  have h1 := PlaylistStore.storePlaylistAll_eq (fun _ : Nat => ()) 0 (List.range 1001) []
    (by simp [List.nodup_range]) (by simp)
  have h2 := PlaylistStore.storeSearchResultAll_eq (fun _ : Nat => ()) 0 (List.range 1001) []
    (by simp [List.nodup_range]) (by simp)
  constructor
  · rw [h1]
    simp [JsMap.size]
  · rw [h2]
    simp [JsMap.size]

/-- C8 amended: the `InMemoryStore` implementation behaves exactly as
claimed for both of its maps — inserting `capacity + 1 = 1001` keys
with distinct (for the search map: distinct normalized) keys into an
empty map leaves exactly 1000 entries, with precisely the
oldest-inserted key absent and every other key present, the eviction
happening synchronously on the insert that exceeds the bound; the
`PlaylistStore` implementation, however, has no capacity bound: `n`
distinct same-instant inserts leave `n` entries in either map. -/
theorem cacheBound_amended {α β : Type} [DecidableEq α] (v : α → β) (vs : String → β)
    (w : α → β) (now : Int) :
    (∀ ks : List α, ks.Nodup → ks.length = 1001 →
      (InMemoryStore.storePlaylistAll ([] : JsMap α β) ks v).size = 1000 ∧
      (∀ k0, ks.head? = some k0 →
        JsMap.get (InMemoryStore.storePlaylistAll ([] : JsMap α β) ks v) k0 = none) ∧
      (∀ k ∈ ks.tail,
        (JsMap.get (InMemoryStore.storePlaylistAll ([] : JsMap α β) ks v) k).isSome = true)) ∧
    (∀ qs : List String, (qs.map InMemoryStore.normalizeQuery).Nodup → qs.length = 1001 →
      (InMemoryStore.storeSearchResultAll ([] : JsMap String β) qs vs).size = 1000 ∧
      (∀ q0, qs.head? = some q0 →
        JsMap.get (InMemoryStore.storeSearchResultAll ([] : JsMap String β) qs vs)
          (InMemoryStore.normalizeQuery q0) = none) ∧
      (∀ q ∈ qs.tail,
        (JsMap.get (InMemoryStore.storeSearchResultAll ([] : JsMap String β) qs vs)
          (InMemoryStore.normalizeQuery q)).isSome = true)) ∧
    (∀ ks : List α, ks.Nodup →
      (PlaylistStore.storePlaylistAll ([] : JsMap α (TimedEntry β)) now ks w).size =
        ks.length ∧
      (PlaylistStore.storeSearchResultAll ([] : JsMap α (TimedEntry β)) now ks w).size =
        ks.length) := by
  refine ⟨?_, ?_, ?_⟩
  · intro ks hnd hlen
    have hb : InMemoryStore.storePlaylistAll ([] : JsMap α β) ks v =
        InMemoryStore.insertAllKeyed (fun k => k) v [] ks := rfl
    rw [hb]
    exact insertAllKeyed_claim (fun k => k) v ks (by simpa using hnd) hlen
  · intro qs hnd hlen
    have hb : InMemoryStore.storeSearchResultAll ([] : JsMap String β) qs vs =
        InMemoryStore.insertAllKeyed InMemoryStore.normalizeQuery vs [] qs := rfl
    rw [hb]
    exact insertAllKeyed_claim InMemoryStore.normalizeQuery vs qs hnd hlen
  · intro ks hnd
    constructor
    · rw [PlaylistStore.storePlaylistAll_eq w now ks [] (by simpa using hnd) (by simp)]
      simp [JsMap.size]
    · rw [PlaylistStore.storeSearchResultAll_eq w now ks [] (by simpa using hnd) (by simp)]
      simp [JsMap.size]

/-- Witness for C8 amended: 1001 distinct numeric keys for the
playlist map, 1001 strings with distinct normalized forms for the
search map, and a 1001-key unbounded `PlaylistStore` insert. -/
theorem cacheBound_amended_witness :
    (InMemoryStore.storePlaylistAll ([] : JsMap Nat Unit) (List.range 1001)
      (fun _ => ())).size = 1000 ∧
    (InMemoryStore.storeSearchResultAll ([] : JsMap String Unit)
      ((List.range 1001).map (fun n => (⟨List.replicate (n + 1) 'a'⟩ : String)))
      (fun _ => ())).size = 1000 ∧
    (PlaylistStore.storePlaylistAll ([] : JsMap Nat (TimedEntry Unit)) 0 (List.range 1001)
      (fun _ => ())).size = 1001 := by
  have hinj : Function.Injective (fun n : Nat => (⟨List.replicate (n + 1) 'a'⟩ : String)) := by
    intro a b h
    have hd : List.replicate (a + 1) 'a' = List.replicate (b + 1) 'a' := congrArg String.data h
    have := congrArg List.length hd
    simpa using this
  have hfix : ∀ n : Nat,
      InMemoryStore.normalizeQuery ((fun n : Nat => (⟨List.replicate (n + 1) 'a'⟩ : String)) n) =
        (fun n : Nat => (⟨List.replicate (n + 1) 'a'⟩ : String)) n := by
    intro n
    apply normalizeQuery_fixed
    intro c hc
    have hca : c = 'a' := List.eq_of_mem_replicate hc
    rw [hca]
    exact ⟨rfl, rfl⟩
  have hmapfix : ((List.range 1001).map (fun n => (⟨List.replicate (n + 1) 'a'⟩ : String))).map
      InMemoryStore.normalizeQuery =
      (List.range 1001).map (fun n => (⟨List.replicate (n + 1) 'a'⟩ : String)) := by
    rw [List.map_map]
    exact List.map_congr_left (fun n _ => hfix n)
  refine ⟨?_, ?_, ?_⟩
  · exact ((cacheBound_amended (fun _ : Nat => ()) (fun _ => ()) (fun _ : Nat => ()) 0).1
      (List.range 1001) (List.nodup_range _) (by simp)).1
  · exact ((cacheBound_amended (fun _ : Nat => ()) (fun _ => ()) (fun _ : Nat => ()) 0).2.1
      ((List.range 1001).map (fun n => (⟨List.replicate (n + 1) 'a'⟩ : String)))
      (by rw [hmapfix]; exact (List.nodup_range _).map hinj) (by simp)).1
  · have h := ((cacheBound_amended (fun _ : Nat => ()) (fun _ => ()) (fun _ : Nat => ()) 0).2.2
      (List.range 1001) (List.nodup_range _)).1
    simpa using h

/-! ## C9 — cached no-match outcomes do not prevent re-querying -/

/-- C9: the code stores an explicit no-match (`null`) outcome in the
search cache, and a later `getSearchResult` within the expiry window
does return that stored entry — but `searchTrack` guards the cached
value with the truthy `if (cachedResult)`, so the returned `null` is
indistinguishable from a miss and a second provider search request is
issued anyway (third component `true`).  The claim (and the spec's
stated purpose of caching no-match outcomes, "to avoid repeated
failing lookups") requires that second call to issue no provider
request. -/
theorem cachedNoMatch_triggers_requery :
    (searchTrack (fun _ => .ok []) [] 0 "Moonlight Sonata" "Beethoven").2.1 =
      [("Moonlight Sonata Beethoven", ⟨none, 0⟩)] ∧
    (searchTrack (fun _ => .ok []) [] 0 "Moonlight Sonata" "Beethoven").2.2 = true ∧
    PlaylistStore.getSearchResult ([("Moonlight Sonata Beethoven", ⟨none, 0⟩)] : SearchCache)
        1000 "Moonlight Sonata Beethoven" =
      (some none, [("Moonlight Sonata Beethoven", ⟨none, 0⟩)]) ∧
    (searchTrack (fun _ => .ok [])
        [("Moonlight Sonata Beethoven", ⟨none, 0⟩)] 1000 "Moonlight Sonata" "Beethoven").1 =
      none ∧
    (searchTrack (fun _ => .ok [])
        [("Moonlight Sonata Beethoven", ⟨none, 0⟩)] 1000 "Moonlight Sonata" "Beethoven").2.2 =
      true :=
  ⟨rfl, rfl, rfl, rfl, rfl⟩
